import Mathlib

/-!
# Verification of the assessment scoring pipeline (`src/indiqs3.py`)

A shallow embedding of the data logic of the dashboard script: the answer-cell
decoder `extract_answer_value` (lines 58-67), the per-row scorer
`calculate_row_score` (lines 70-86), the workbook processor `process_workbook`
(lines 89-123) and the per-question statistics `calculate_question_stats`
(lines 252-268).

Modelling conventions:
* a pandas cell is a `PyVal`: missing/NaN (`na`), an integer, or a string;
  binary floating point cells are idealised away (the decisive cells in the
  pipeline are strings, integers and NaN);
* Python exceptions that `process_workbook` catches (`KeyError` from a missing
  column, `ValueError` from unpacking an empty sheet) are modelled with
  `Except String`; the single `st.error(...)` plus all-`None` return of the
  source corresponds to `Except.error`;
* `json.loads` is embedded as a fuel-based recursive-descent parser of the
  JSON grammar Python accepts (including `NaN`/`Infinity` constants); JSON
  decimal literals are kept as exact decimals rather than binary64 values.
-/

/-- A scalar value held in a pandas cell: missing (`NaN`/`None`), an integer,
or a string. -/
inductive PyVal where
  | na
  | pint (n : Int)
  | pstr (s : String)
deriving DecidableEq, Repr

/-- Python `str()` of a cell value (`str(float('nan')) = "nan"`). -/
def pyStr : PyVal → String
  | .na => "nan"
  | .pint n => toString n
  | .pstr s => s

/-- Python `==` between a cell value and a `str` literal: only an equal string
compares equal (an int or NaN is never `==` to a str). -/
def cellEqStr (v : PyVal) (s : String) : Bool :=
  match v with
  | .pstr t => t == s
  | _ => false

/-- Python `==` between a cell value and an `int` literal: only an equal int
compares equal (a str or NaN is never `==` to an int). -/
def cellEqInt (v : PyVal) (n : Int) : Bool :=
  match v with
  | .pint m => m == n
  | _ => false

/-- Elementwise pandas `==` between two cell values.  `NaN == NaN` is `False`,
and an int never equals a str. -/
def pyEqVal : PyVal → PyVal → Bool
  | .na, _ => false
  | _, .na => false
  | .pint n, .pint m => n == m
  | .pstr s, .pstr t => s == t
  | .pint _, .pstr _ => false
  | .pstr _, .pint _ => false

/-- Python `==` between an `Optional[int]` (a decoded answer) and a cell value
(the correct answer from the key).  `None == x` is `False` for every
non-`None` `x`, and an int never equals a str or NaN. -/
def eqAnsPy (a : Option Int) (cv : PyVal) : Bool :=
  match a, cv with
  | some n, .pint m => n == m
  | _, _ => false

/-! ## The JSON value model (result of `json.loads`) -/

/-- The value space of Python's `json.loads`: `None`, bools, ints, decimal
floats (`jnum m e` denotes `m * 10 ^ e`, an exact-decimal idealisation of the
binary64 float Python produces), the `Infinity`/`NaN` extensions Python
accepts, strings, lists and dicts. -/
inductive JsonVal where
  | jnull
  | jbool (b : Bool)
  | jint (n : Int)
  | jnum (m : Int) (e : Int)
  | jinf (pos : Bool)
  | jnan
  | jstr (s : String)
  | jarr (elems : List JsonVal)
  | jobj (fields : List (String × JsonVal))
deriving Repr

/-- `dict.get k` on the field list of a parsed JSON object: later duplicate
keys overwrite earlier ones, as in Python's dict construction. -/
def jobjGet (fields : List (String × JsonVal)) (k : String) : Option JsonVal :=
  fields.foldl (fun acc p => if p.1 = k then some p.2 else acc) none

/-- `dict.get k d` with a default. -/
def jobjGetD (fields : List (String × JsonVal)) (k : String) (d : JsonVal) : JsonVal :=
  (jobjGet fields k).getD d

/-! ## The JSON text parser (`json.loads`) -/

/-- JSON whitespace (the only whitespace `json.loads` skips). -/
def isJsonWs (c : Char) : Bool :=
  c = ' ' || c = '\t' || c = '\n' || c = '\r'

/-- Drop leading JSON whitespace. -/
def skipWs : List Char → List Char
  | [] => []
  | c :: cs => if isJsonWs c then skipWs cs else c :: cs

/-- Value of a hex digit, if any. -/
def parseHex (c : Char) : Option Nat :=
  if '0' ≤ c ∧ c ≤ '9' then some (c.toNat - 48)
  else if 'a' ≤ c ∧ c ≤ 'f' then some (c.toNat - 87)
  else if 'A' ≤ c ∧ c ≤ 'F' then some (c.toNat - 55)
  else none

/-- Value of a decimal digit character. -/
def digitVal (c : Char) : Nat := c.toNat - 48

/-- Take a maximal run of decimal digits, returning their values and the rest. -/
def takeDigits : List Char → List Nat × List Char
  | [] => ([], [])
  | c :: cs =>
    if c.isDigit then
      let (ds, r) := takeDigits cs
      (digitVal c :: ds, r)
    else ([], c :: cs)

/-- Numeric value of a digit-value list, most significant first. -/
def digitsToNat (ds : List Nat) : Nat :=
  ds.foldl (fun a d => a * 10 + d) 0

/-- Apply an optional leading minus sign. -/
def signedInt (neg : Bool) (n : Nat) : Int :=
  if neg then -(n : Int) else (n : Int)

/-- Body of a JSON string after the opening quote, with the strict-mode
rejection of raw control characters and the standard escape set.  `\uXXXX`
escapes are turned into the character of that code point (surrogate pairing is
not modelled; no cell in the claims uses `\u`). -/
def parseJStringAux : List Char → List Char → Option (String × List Char)
  | _, [] => none
  | acc, '"' :: cs => some (String.mk acc.reverse, cs)
  | acc, '\\' :: cs =>
    match cs with
    | [] => none
    | e :: cs' =>
      if e = '"' ∨ e = '\\' ∨ e = '/' then parseJStringAux (e :: acc) cs'
      else if e = 'b' then parseJStringAux ('\x08' :: acc) cs'
      else if e = 'f' then parseJStringAux ('\x0c' :: acc) cs'
      else if e = 'n' then parseJStringAux ('\n' :: acc) cs'
      else if e = 'r' then parseJStringAux ('\r' :: acc) cs'
      else if e = 't' then parseJStringAux ('\t' :: acc) cs'
      else if e = 'u' then
        match cs' with
        | h1 :: h2 :: h3 :: h4 :: cs2 =>
          match parseHex h1, parseHex h2, parseHex h3, parseHex h4 with
          | some a, some b, some c, some d =>
            parseJStringAux (Char.ofNat (((a * 16 + b) * 16 + c) * 16 + d) :: acc) cs2
          | _, _, _, _ => none
        | _ => none
      else none
  | acc, c :: cs =>
    if c.toNat < 32 then none else parseJStringAux (c :: acc) cs

/-- Optional exponent part `[eE][+-]?digits`; if the exponent is malformed it
is simply not consumed (as with Python's number regular expression). -/
def parseExpPart : List Char → Option (Int × List Char)
  | [] => none
  | c :: r =>
    if c = 'e' ∨ c = 'E' then
      match r with
      | '+' :: r2 =>
        match takeDigits r2 with
        | ([], _) => none
        | (ds, r3) => some ((digitsToNat ds : Int), r3)
      | '-' :: r2 =>
        match takeDigits r2 with
        | ([], _) => none
        | (ds, r3) => some (-(digitsToNat ds : Int), r3)
      | r2 =>
        match takeDigits r2 with
        | ([], _) => none
        | (ds, r3) => some ((digitsToNat ds : Int), r3)
    else none

/-- Assemble a JSON number from its sign, integer digits and the remaining
input (fraction and exponent).  No fraction and no exponent yields an int,
anything else a decimal float. -/
def finishNumber (neg : Bool) (ipart : List Nat) (rest : List Char) : JsonVal × List Char :=
  let fr : List Nat × List Char :=
    match rest with
    | '.' :: r =>
      match takeDigits r with
      | ([], _) => ([], rest)
      | (ds, r2) => (ds, r2)
    | _ => ([], rest)
  let fpart := fr.1
  let rest2 := fr.2
  match fpart, parseExpPart rest2 with
  | [], none => (.jint (signedInt neg (digitsToNat ipart)), rest2)
  | _, _ =>
    let ex : Int := (match parseExpPart rest2 with | some (e, _) => e | none => 0)
    let rest3 := (match parseExpPart rest2 with | some (_, r3) => r3 | none => rest2)
    (.jnum (signedInt neg (digitsToNat (ipart ++ fpart))) (ex - fpart.length), rest3)

/-- A JSON number: optional minus, `0 | [1-9][0-9]*`, optional fraction and
exponent (the grammar of Python's `json` scanner). -/
def parseJNumber (cs : List Char) : Option (JsonVal × List Char) :=
  let sg : Bool × List Char :=
    match cs with
    | '-' :: r => (true, r)
    | r => (false, r)
  let neg := sg.1
  match sg.2 with
  | [] => none
  | c :: r =>
    if c = '0' then some (finishNumber neg [0] r)
    else if c.isDigit then
      let dr := takeDigits (c :: r)
      some (finishNumber neg dr.1 dr.2)
    else none

mutual

/-- One JSON value, fuelled.  Mirrors Python's scanner: the literals `null`,
`true`, `false`, `NaN`, `Infinity`, `-Infinity`, then strings, arrays, objects
and numbers. -/
def parseJValue : Nat → List Char → Option (JsonVal × List Char)
  | 0, _ => none
  | fuel + 1, cs =>
    match cs with
    | 'n' :: 'u' :: 'l' :: 'l' :: r => some (.jnull, r)
    | 't' :: 'r' :: 'u' :: 'e' :: r => some (.jbool true, r)
    | 'f' :: 'a' :: 'l' :: 's' :: 'e' :: r => some (.jbool false, r)
    | 'N' :: 'a' :: 'N' :: r => some (.jnan, r)
    | 'I' :: 'n' :: 'f' :: 'i' :: 'n' :: 'i' :: 't' :: 'y' :: r => some (.jinf true, r)
    | '-' :: 'I' :: 'n' :: 'f' :: 'i' :: 'n' :: 'i' :: 't' :: 'y' :: r => some (.jinf false, r)
    | '"' :: r =>
      match parseJStringAux [] r with
      | some (s, r2) => some (.jstr s, r2)
      | none => none
    | '[' :: r =>
      match skipWs r with
      | ']' :: r2 => some (.jarr [], r2)
      | r1 =>
        match parseJArrayItems fuel r1 with
        | some (xs, r2) => some (.jarr xs, r2)
        | none => none
    | '{' :: r =>
      match skipWs r with
      | '}' :: r2 => some (.jobj [], r2)
      | r1 =>
        match parseJObjItems fuel r1 with
        | some (ps, r2) => some (.jobj ps, r2)
        | none => none
    | _ => parseJNumber cs

/-- Comma-separated array items up to the closing bracket. -/
def parseJArrayItems : Nat → List Char → Option (List JsonVal × List Char)
  | 0, _ => none
  | fuel + 1, cs =>
    match parseJValue fuel cs with
    | none => none
    | some (v, r) =>
      match skipWs r with
      | ',' :: r2 =>
        match parseJArrayItems fuel (skipWs r2) with
        | some (vs, r3) => some (v :: vs, r3)
        | none => none
      | ']' :: r2 => some ([v], r2)
      | _ => none

/-- Comma-separated `"key": value` pairs up to the closing brace. -/
def parseJObjItems : Nat → List Char → Option (List (String × JsonVal) × List Char)
  | 0, _ => none
  | fuel + 1, cs =>
    match cs with
    | '"' :: r =>
      match parseJStringAux [] r with
      | none => none
      | some (k, r1) =>
        match skipWs r1 with
        | ':' :: r2 =>
          match parseJValue fuel (skipWs r2) with
          | none => none
          | some (v, r3) =>
            match skipWs r3 with
            | ',' :: r4 =>
              match parseJObjItems fuel (skipWs r4) with
              | some (ps, r5) => some ((k, v) :: ps, r5)
              | none => none
            | '}' :: r4 => some ([(k, v)], r4)
            | _ => none
        | _ => none
    | _ => none

end

/-- `json.loads` on a character list: skip leading whitespace, parse one value,
require only whitespace to remain ("Extra data" otherwise).  The fuel
`2 * length + 2` dominates the recursion depth, which consumes at least one
character every two calls. -/
def json_loads (cs : List Char) : Option JsonVal :=
  match parseJValue (2 * cs.length + 2) (skipWs cs) with
  | some (v, r) => if skipWs r = [] then some v else none
  | none => none

/-! ## Python `int(...)` coercion -/

/-- Characters Python's `str.strip()` (and `int(str)`) removes at both ends.
Unicode whitespace beyond the ASCII set is not modelled. -/
def pyIsSpace (c : Char) : Bool :=
  c = ' ' || c = '\t' || c = '\n' || c = '\r' || c = '\x0b' || c = '\x0c'

/-- Python `str.strip()` on a character list. -/
def pyStripList (cs : List Char) : List Char :=
  ((cs.dropWhile pyIsSpace).reverse.dropWhile pyIsSpace).reverse

/-- Digits of an integer literal after the first digit, allowing single
underscores between digits as Python's `int(str)` does. -/
def intDigitsLoop : Nat → List Char → Option Nat
  | acc, [] => some acc
  | acc, '_' :: rest =>
    match rest with
    | [] => none
    | c :: cs => if c.isDigit then intDigitsLoop (acc * 10 + digitVal c) cs else none
  | acc, c :: cs =>
    if c.isDigit then intDigitsLoop (acc * 10 + digitVal c) cs else none

/-- Python `int(s)` for a string: strip whitespace, optional sign, then
decimal digits (with underscore separators); anything else raises
`ValueError`, modelled as `none`. -/
def pyStrToInt (s : String) : Option Int :=
  match pyStripList s.toList with
  | '+' :: c :: cs => if c.isDigit then (intDigitsLoop (digitVal c) cs).map Int.ofNat else none
  | '-' :: c :: cs =>
    if c.isDigit then (intDigitsLoop (digitVal c) cs).map (fun n => -(n : Int)) else none
  | c :: cs => if c.isDigit then (intDigitsLoop (digitVal c) cs).map Int.ofNat else none
  | [] => none

/-- `m / 10 ^ d` truncated toward zero: what `int(float)` does to the decimal
`m * 10 ^ (-d)`. -/
def truncDivPow10 (m : Int) (d : Nat) : Int :=
  if 0 ≤ m then ((m.toNat / 10 ^ d : Nat) : Int)
  else -(((-m).toNat / 10 ^ d : Nat) : Int)

/-- `int(float)` on the decimal `m * 10 ^ e`: exact when `e ≥ 0`, truncated
toward zero when `e < 0`. -/
def floatToInt (m : Int) (e : Int) : Int :=
  if 0 ≤ e then m * 10 ^ e.toNat else truncDivPow10 m (-e).toNat

/-- Python `int(x)` over a parsed JSON value.  `int(None)`, `int(list)`,
`int(dict)` raise `TypeError`; `int(nan)`/`int(inf)` raise
`ValueError`/`OverflowError`; bools are ints (`int(True) = 1`); floats
truncate toward zero; strings are parsed as decimal integers. -/
def pyIntCoerce : JsonVal → Option Int
  | .jnull => none
  | .jbool b => some (if b then 1 else 0)
  | .jint n => some n
  | .jnum m e => some (floatToInt m e)
  | .jinf _ => none
  | .jnan => none
  | .jstr s => pyStrToInt s
  | .jarr _ => none
  | .jobj _ => none

/-! ## `extract_answer_value` (lines 58-67) -/

/-- Left-to-right non-overlapping `str.replace('""', '"')`. -/
def replaceQQ : List Char → List Char
  | '"' :: '"' :: cs => '"' :: replaceQQ cs
  | c :: cs => c :: replaceQQ cs
  | [] => []

/-- Lines 61-63 of the source: `str(val).strip()`, then if the text both
starts and ends with a quote character, drop one from each end (`[1:-1]`, so a
lone `"` becomes empty) and un-double internal quotes. -/
def clean_cell (s : String) : List Char :=
  let t := pyStripList s.toList
  if (t.head? == some '"') && (t.getLast? == some '"') then
    replaceQQ (t.drop 1).dropLast
  else t

/-- Lines 58-67: decode one raw answer cell.  A missing cell is `None`;
otherwise the cleaned text is fed to `json.loads` and
`int(data.get('value', -1))` is returned; every exception in the `try` block
(parse error, `.get` on a non-dict, failed `int()` coercion) collapses to
`None`. -/
def extract_answer_value (val : PyVal) : Option Int :=
  match val with
  | .na => none
  | v =>
    match json_loads (clean_cell (pyStr v)) with
    | some (.jobj fields) => pyIntCoerce (jobjGetD fields "value" (.jint (-1)))
    | some _ => none
    | none => none


/-! ## Rows, thrown exceptions, and the Except combinators -/

/-- A DataFrame row (or key-sheet row): named fields with cell values.  Column
presence is modelled per row; the sheets the program reads have the same
fields in every row. -/
abbrev RawRow := List (String × PyVal)

/-- `row[c]` / `series[c]`: field access that raises `KeyError` when the
column is absent. -/
def rowGetE (r : RawRow) (c : String) : Except String PyVal :=
  match r.lookup c with
  | some v => .ok v
  | none => .error ("KeyError: " ++ c)

/-- Effectful `map` over a list, stopping at the first raised exception. -/
def mapE (f : α → Except String β) : List α → Except String (List β)
  | [] => .ok []
  | a :: l =>
    match f a with
    | .error e => .error e
    | .ok b =>
      match mapE f l with
      | .error e => .error e
      | .ok bs => .ok (b :: bs)

/-- Effectful `filter` over a list (a boolean-mask selection whose mask
computation may raise). -/
def filterE (p : α → Except String Bool) : List α → Except String (List α)
  | [] => .ok []
  | a :: l =>
    match p a with
    | .error e => .error e
    | .ok b =>
      match filterE p l with
      | .error e => .error e
      | .ok l' => .ok (if b then a :: l' else l')

/-- Effectful left fold, stopping at the first raised exception. -/
def foldlE (f : σ → α → Except String σ) : σ → List α → Except String σ
  | s, [] => .ok s
  | s, a :: l =>
    match f s a with
    | .error e => .error e
    | .ok s' => foldlE f s' l

/-! ## `calculate_row_score` (lines 70-86) -/

/-- The f-string `f"G{grade}"` of line 74: the textual grade code. -/
def gradeCode (g : PyVal) : String := "G" ++ pyStr g

/-- The mask of line 74 for one key row:
`(key_df['Grade'] == f"G{grade}") & (key_df['Assessment'] == assessment_type)`.
Both columns are read, raising `KeyError` if absent. -/
def matchesGA (k : RawRow) (gc assessment_type : String) : Except String Bool :=
  match rowGetE k "Grade" with
  | .error e => .error e
  | .ok g =>
    match rowGetE k "Assessment" with
    | .error e => .error e
    | .ok a => .ok (cellEqStr g gc && cellEqStr a assessment_type)

/-- Line 74: `relevant_key = key_df[(Grade mask) & (Assessment mask)]`. -/
def filterGA (key_df : List RawRow) (gc assessment_type : String) :
    Except String (List RawRow) :=
  filterE (fun k => matchesGA k gc assessment_type) key_df

/-- The mask of line 80 for one key row: `relevant_key['Question #'] == q_num`. -/
def matchesQ (k : RawRow) (q_num : Nat) : Except String Bool :=
  match rowGetE k "Question #" with
  | .error e => .error e
  | .ok v => .ok (cellEqInt v (q_num : Int))

/-- Lines 76-85, one iteration of the question loop for `q_num = i + 1`:
if the row has column `Q{q_num}`, decode it, select the matching key rows,
and if any exist compare with `iloc[0]['Correct Value']`, incrementing the
`(score, total_questions)` accumulator. -/
def scoreStep (row : RawRow) (relevant_key : List RawRow) (acc : Nat × Nat) (i : Nat) :
    Except String (Nat × Nat) :=
  match row.lookup ("Q" ++ toString (i + 1)) with
  | none => .ok acc
  | some cell =>
    match filterE (fun k => matchesQ k (i + 1)) relevant_key with
    | .error e => .error e
    | .ok correct_row =>
      match correct_row.head? with
      | none => .ok acc
      | some kr =>
        match rowGetE kr "Correct Value" with
        | .error e => .error e
        | .ok correct_ans =>
          .ok (acc.1 + (if eqAnsPy (extract_answer_value cell) correct_ans then 1 else 0),
               acc.2 + 1)

/-- Lines 70-86: score one student row against the answer key for one
assessment phase, returning `(score, total_questions)`.  `row['Grade']` and
the key-sheet columns raise `KeyError` when absent, which the caller's
`except` turns into the single user-facing error. -/
def calculate_row_score (row : RawRow) (key_df : List RawRow) (assessment_type : String) :
    Except String (Nat × Nat) :=
  match rowGetE row "Grade" with
  | .error e => .error e
  | .ok grade =>
    match filterGA key_df (gradeCode grade) assessment_type with
    | .error e => .error e
    | .ok relevant_key => foldlE (scoreStep row relevant_key) (0, 0) (List.range 10)

/-! ## Float results of the pandas arithmetic (`Percentage`, `Growth`) -/

/-- Result of the pandas float arithmetic on derived columns: a finite value
(exact rational idealisation of binary64), or `NaN`, or a signed infinity. -/
inductive PFloat where
  | val (q : ℚ)
  | nan
  | inf
  | ninf
deriving DecidableEq, Repr

/-- Pandas elementwise division of two non-negative integer cells:
`0 / 0` is `NaN`, `k / 0` is `inf` for `k > 0`, otherwise exact division. -/
def pandasDivNat (s t : Nat) : PFloat :=
  if t = 0 then (if s = 0 then .nan else .inf) else .val ((s : ℚ) / (t : ℚ))

/-- Multiplication by the positive constant `100`. -/
def pfMul100 : PFloat → PFloat
  | .val q => .val (q * 100)
  | x => x

/-- Lines 105 and 110: `(Score / Max_Score) * 100`. -/
def pyPct (s t : Nat) : PFloat := pfMul100 (pandasDivNat s t)

/-- Pandas elementwise subtraction of float cells; `NaN` propagates, and
`inf - inf` is `NaN`. -/
def pfSub : PFloat → PFloat → PFloat
  | .nan, _ => .nan
  | _, .nan => .nan
  | .inf, .inf => .nan
  | .inf, _ => .inf
  | .ninf, .ninf => .nan
  | .ninf, _ => .ninf
  | .val _, .inf => .ninf
  | .val _, .ninf => .inf
  | .val a, .val b => .val (a - b)

/-! ## `process_workbook` (lines 89-123) -/

/-- A response row with its derived fields `Score`, `Max_Score`, `Percentage`
attached (lines 102-110). -/
structure ScoredRow where
  raw : RawRow
  score : Nat
  maxScore : Nat
  percentage : PFloat
deriving Repr

/-- Lines 102-110 for one sheet: run `calculate_row_score` on every row and
attach the derived columns.  Unpacking `zip(*...)` of an empty sheet raises
`ValueError` before any row is processed. -/
def scoreSheet (df key_df : List RawRow) (assessment_type : String) :
    Except String (List ScoredRow) :=
  if df.isEmpty then .error "not enough values to unpack (expected 2, got 0)"
  else
    mapE (fun row =>
      match calculate_row_score row key_df assessment_type with
      | .error e => .error e
      | .ok st =>
        .ok { raw := row, score := st.1, maxScore := st.2,
              percentage := pyPct st.1 st.2 : ScoredRow }) df

/-- The baseline columns selected on line 114. -/
structure BLRec where
  studentId : PyVal
  state : PyVal
  center : PyVal
  grade : PyVal
  percentage : PFloat
  score : Nat
deriving DecidableEq, Repr

/-- The endline columns selected on line 115. -/
structure ELRec where
  studentId : PyVal
  percentage : PFloat
  score : Nat
deriving DecidableEq, Repr

/-- One row of the merged growth table (lines 113-118). -/
structure MergedRec where
  studentId : PyVal
  state : PyVal
  center : PyVal
  grade : PyVal
  percentageBL : PFloat
  scoreBL : Nat
  percentageEL : PFloat
  scoreEL : Nat
  growth : PFloat
deriving DecidableEq, Repr

/-- Line 114: `baseline_df[['Student ID', 'State', 'Center', 'Grade',
'Percentage', 'Score']]`; a missing identity column raises `KeyError`. -/
def selectBL (r : ScoredRow) : Except String BLRec :=
  match rowGetE r.raw "Student ID" with
  | .error e => .error e
  | .ok sid =>
    match rowGetE r.raw "State" with
    | .error e => .error e
    | .ok sta =>
      match rowGetE r.raw "Center" with
      | .error e => .error e
      | .ok cen =>
        match rowGetE r.raw "Grade" with
        | .error e => .error e
        | .ok grd =>
          .ok { studentId := sid, state := sta, center := cen, grade := grd,
                percentage := r.percentage, score := r.score }

/-- Line 115: `endline_df[['Student ID', 'Percentage', 'Score']]`. -/
def selectEL (r : ScoredRow) : Except String ELRec :=
  match rowGetE r.raw "Student ID" with
  | .error e => .error e
  | .ok sid => .ok { studentId := sid, percentage := r.percentage, score := r.score }

/-- Lines 113-118: `pd.merge(..., on='Student ID')` (inner join, left order,
each baseline row paired with every matching endline row) followed by
`Growth = Percentage_EL - Percentage_BL`. -/
def pd_merge (bs : List BLRec) (es : List ELRec) : List MergedRec :=
  bs.flatMap (fun b =>
    (es.filter (fun e => decide (e.studentId = b.studentId))).map (fun e =>
      { studentId := b.studentId, state := b.state, center := b.center,
        grade := b.grade, percentageBL := b.percentage, scoreBL := b.score,
        percentageEL := e.percentage, scoreEL := e.score,
        growth := pfSub e.percentage b.percentage }))

/-- Lines 89-123: the whole processing call.  A missing required sheet yields
the single error of lines 93-95; any exception raised during scoring or
column selection is caught by the `except` of lines 121-123 and also yields a
single error with all four outputs absent (`Except.error` models
`st.error(...)` plus `return None, None, None, None`). -/
def process_workbook (xls : List (String × List RawRow)) :
    Except String (List MergedRec × List ScoredRow × List ScoredRow × List RawRow) :=
  match xls.lookup "WB-Baseline-English", xls.lookup "WB-Endline-English",
        xls.lookup "AnswerKey" with
  | some baseline_df, some endline_df, some answer_key =>
    match scoreSheet baseline_df answer_key "Baseline" with
    | .error e => .error e
    | .ok scoredBL =>
      match scoreSheet endline_df answer_key "Endline" with
      | .error e => .error e
      | .ok scoredEL =>
        match mapE selectBL scoredBL with
        | .error e => .error e
        | .ok blSel =>
          match mapE selectEL scoredEL with
          | .error e => .error e
          | .ok elSel => .ok (pd_merge blSel elSel, scoredBL, scoredEL, answer_key)
  | _, _, _ => .error "Missing required sheets."

/-! ## `calculate_question_stats` (lines 252-268) -/

/-- One emitted per-question statistic: `{'Grade': grade, 'Question': f"Q{q}",
'Accuracy': accuracy}`. -/
structure QStat where
  grade : PyVal
  question : String
  accuracy : PFloat
deriving DecidableEq, Repr

/-- `Series.unique()`: distinct values in first-occurrence order (NaN values
are deduplicated like any other value). -/
def uniqueFirstAux : List PyVal → List PyVal → List PyVal
  | [], _ => []
  | a :: l, seen => if a ∈ seen then uniqueFirstAux l seen else a :: uniqueFirstAux l (a :: seen)

/-- `df['Grade'].unique()` order-preserving deduplication. -/
def uniqueFirst (l : List PyVal) : List PyVal := uniqueFirstAux l []

/-- `q_col in df.columns`: column presence is frame-level; a filtered frame
keeps the columns of its parent, so the check is modelled against the parent
frame's rows. -/
def dfHasCol (df : List RawRow) (c : String) : Bool :=
  df.any (fun r => (r.lookup c).isSome)

/-- `(extracted == correct_val).mean() * 100`: the mean of a boolean series is
`NaN` when the series is empty. -/
def meanBool100 (l : List Bool) : PFloat :=
  match l with
  | [] => .nan
  | _ => .val (((l.countP id : ℚ) / (l.length : ℚ)) * 100)

/-- Lines 258-267, the question loop for one grade: `grade_df` is the grade's
row selection, `key_subset` its key rows; for each question with a present
column and a non-empty key match, append one accuracy record. -/
def gradeMask (grade : PyVal) (r : RawRow) : Except String Bool :=
  match rowGetE r "Grade" with
  | .error e => .error e
  | .ok g => .ok (pyEqVal g grade)

/-- One iteration of the question loop of lines 258-267 for `q_num = i + 1`. -/
def qStatStep (df : List RawRow) (grade : PyVal) (grade_df key_subset : List RawRow)
    (acc : List QStat) (i : Nat) : Except String (List QStat) :=
  if dfHasCol df ("Q" ++ toString (i + 1)) then
    match filterE (fun k => matchesQ k (i + 1)) key_subset with
    | .error e => .error e
    | .ok q_key =>
      match q_key.head? with
      | some kr =>
        match rowGetE kr "Correct Value" with
        | .error e => .error e
        | .ok correct_val =>
          match mapE (fun r => rowGetE r ("Q" ++ toString (i + 1))) grade_df with
          | .error e => .error e
          | .ok cells =>
            .ok (acc ++ [{ grade := grade, question := "Q" ++ toString (i + 1),
                           accuracy := meanBool100 (cells.map (fun c =>
                             eqAnsPy (extract_answer_value c) correct_val)) : QStat }])
      | none => .ok acc
  else .ok acc

def qStatsForGrade (df key_df : List RawRow) (assessment_type : String) (grade : PyVal) :
    Except String (List QStat) :=
  match filterE (gradeMask grade) df with
  | .error e => .error e
  | .ok grade_df =>
    match filterGA key_df (gradeCode grade) assessment_type with
    | .error e => .error e
    | .ok key_subset =>
      foldlE (qStatStep df grade grade_df key_subset) [] (List.range 10)

/-- Lines 252-268: per-question accuracy records, grouped by the distinct
grades of `df['Grade']` in first-occurrence order. -/
def calculate_question_stats (df key_df : List RawRow) (assessment_type : String) :
    Except String (List QStat) :=
  match mapE (fun r => rowGetE r "Grade") df with
  | .error e => .error e
  | .ok gradesCol =>
    foldlE (fun acc g =>
      match qStatsForGrade df key_df assessment_type g with
      | .error e => .error e
      | .ok s => .ok (acc ++ s)) [] (uniqueFirst gradesCol)

/-! ## Spec-side definitions (pure restatements used to state the claims) -/

/-- Pure (total) version of the grade/assessment mask `matchesGA`, reading
absent fields as a non-match; agrees with `matchesGA` whenever the key row has
both columns. -/
def bMatchesGA (k : RawRow) (gc assessment_type : String) : Bool :=
  (match k.lookup "Grade" with
   | some v => cellEqStr v gc
   | none => false) &&
  (match k.lookup "Assessment" with
   | some v => cellEqStr v assessment_type
   | none => false)

/-- Pure version of the question-number mask `matchesQ`. -/
def bMatchesQ (k : RawRow) (q_num : Nat) : Bool :=
  match k.lookup "Question #" with
  | some v => cellEqInt v (q_num : Int)
  | none => false

/-- The answer-key lookup of the spec: the first key row whose textual grade
code, assessment phase and question number match, if any, gives the correct
value. -/
def keyEntry (key_df : List RawRow) (gc assessment_type : String) (q_num : Nat) :
    Option PyVal :=
  (((key_df.filter (fun k => bMatchesGA k gc assessment_type)).filter
      (fun k => bMatchesQ k q_num)).head?).bind (fun k => k.lookup "Correct Value")

/-- A key-sheet row with all four required columns present. -/
def WFKeyRow (k : RawRow) : Prop :=
  (k.lookup "Grade").isSome ∧ (k.lookup "Assessment").isSome ∧
    (k.lookup "Question #").isSome ∧ (k.lookup "Correct Value").isSome

/-- Claim-side contribution of question `q_num` to `max_score`: `1` iff the
row has the question's column and a key entry exists for it. -/
def specQMax (row : RawRow) (key_df : List RawRow) (gc assessment_type : String)
    (q_num : Nat) : Nat :=
  match row.lookup ("Q" ++ toString q_num), keyEntry key_df gc assessment_type q_num with
  | some _, some _ => 1
  | _, _ => 0

/-- Claim-side contribution of question `q_num` to `score`: `1` iff the row
has the column, a key entry exists, and the decoded answer equals the correct
value. -/
def specQScore (row : RawRow) (key_df : List RawRow) (gc assessment_type : String)
    (q_num : Nat) : Nat :=
  match row.lookup ("Q" ++ toString q_num), keyEntry key_df gc assessment_type q_num with
  | some cell, some cv => if eqAnsPy (extract_answer_value cell) cv then 1 else 0
  | _, _ => 0

/-- `Except.isOk` without relying on library helpers. -/
def exceptIsOk : Except String α → Bool
  | .ok _ => true
  | .error _ => false

/-- The join property exactly as claim C2 states it, for arbitrary row
collections: row count at most `min`, with equality exactly when every
baseline Student ID also appears in the endline rows. -/
def specJoinClaim (bs : List BLRec) (es : List ELRec) : Prop :=
  (pd_merge bs es).length ≤ min bs.length es.length ∧
  ((pd_merge bs es).length = min bs.length es.length ↔
    ∀ b ∈ bs, ∃ e ∈ es, e.studentId = b.studentId)

/-- One of the three required sheets is absent from the workbook. -/
def sheetMissing (xls : List (String × List RawRow)) : Prop :=
  (xls.lookup "WB-Baseline-English").isNone ∨
  (xls.lookup "WB-Endline-English").isNone ∨
  (xls.lookup "AnswerKey").isNone

/-- The named column is absent from every row of the sheet (sheets have
uniform columns, so a missing column is missing from each row). -/
def colMissingAll (df : List RawRow) (c : String) : Prop :=
  ∀ r ∈ df, r.lookup c = none

/-- The structural-defect condition exactly as claim C6 states it: a required
sheet is missing, or a (nonempty) response sheet — either of them — is missing
one of the required columns Student ID, State, Center, Grade. -/
def specStructuralDefect (xls : List (String × List RawRow)) : Prop :=
  sheetMissing xls ∨
  (∃ df, xls.lookup "WB-Baseline-English" = some df ∧ df ≠ [] ∧
    (colMissingAll df "Student ID" ∨ colMissingAll df "State" ∨
     colMissingAll df "Center" ∨ colMissingAll df "Grade")) ∨
  (∃ df, xls.lookup "WB-Endline-English" = some df ∧ df ≠ [] ∧
    (colMissingAll df "Student ID" ∨ colMissingAll df "State" ∨
     colMissingAll df "Center" ∨ colMissingAll df "Grade"))

/-- The structural defects the code actually aborts on: a missing sheet; a
baseline sheet missing Student ID, State, Center or Grade; an endline sheet
missing Student ID or Grade.  (Endline State/Center are never read by
`process_workbook`.) -/
def codeStructuralDefect (xls : List (String × List RawRow)) : Prop :=
  sheetMissing xls ∨
  (∃ df, xls.lookup "WB-Baseline-English" = some df ∧
    (colMissingAll df "Student ID" ∨ colMissingAll df "State" ∨
     colMissingAll df "Center" ∨ colMissingAll df "Grade")) ∨
  (∃ df, xls.lookup "WB-Endline-English" = some df ∧
    (colMissingAll df "Student ID" ∨ colMissingAll df "Grade"))

/-- Every row of the sheet has a `Grade` field. -/
def HasGradeCol (df : List RawRow) : Prop :=
  ∀ r ∈ df, (r.lookup "Grade").isSome

/-- Uniform columns: a field present in some row is present in every row (true
of any DataFrame read from a sheet). -/
def UniformCols (df : List RawRow) : Prop :=
  ∀ r ∈ df, ∀ c : String, dfHasCol df c = true → (r.lookup c).isSome

/-- Every key row carries the four key-sheet columns. -/
def WFKeySheet (key_df : List RawRow) : Prop :=
  ∀ k ∈ key_df, WFKeyRow k

/-- The `Grade` value of a row (`NaN` when absent; total for convenience —
the hypotheses under which it is used guarantee presence). -/
def gradeValOf (r : RawRow) : PyVal :=
  (r.lookup "Grade").getD .na

/-- The cell of a row in a named column (`NaN` when absent). -/
def cellOrNA (r : RawRow) (c : String) : PyVal :=
  (r.lookup c).getD .na

/-- The grade-group selection `df[df['Grade'] == grade]` in pure form. -/
def rowsOfGrade (df : List RawRow) (grade : PyVal) : List RawRow :=
  df.filter (fun r => pyEqVal (gradeValOf r) grade)

/-- Claim-side accuracy of one question for one grade group: decoded answers
of all the group's rows compared with the correct value, averaged. -/
def specAccuracy (df : List RawRow) (grade : PyVal) (q_col : String) (cv : PyVal) : PFloat :=
  meanBool100 ((rowsOfGrade df grade).map
    (fun r => eqAnsPy (extract_answer_value (cellOrNA r q_col)) cv))

/-- Claim-side record emitted for `(grade, question i + 1)` if the question
column is present and a key entry exists. -/
def specEmit (df key_df : List RawRow) (assessment_type : String) (grade : PyVal)
    (i : Nat) : Option QStat :=
  if dfHasCol df ("Q" ++ toString (i + 1)) then
    match keyEntry key_df (gradeCode grade) assessment_type (i + 1) with
    | some cv => some { grade := grade, question := "Q" ++ toString (i + 1),
                        accuracy := specAccuracy df grade ("Q" ++ toString (i + 1)) cv }
    | none => none
  else none

/-- Claim-side records of one grade group: one per question `1..10` that has a
column and a key entry. -/
def specGradeRecords (df key_df : List RawRow) (assessment_type : String)
    (grade : PyVal) : List QStat :=
  (List.range 10).filterMap (specEmit df key_df assessment_type grade)

/-- The grade column of the sheet, in row order. -/
def pureGrades (df : List RawRow) : List PyVal :=
  df.map gradeValOf

/-- Claim-side per-question statistics: for each distinct grade (first
occurrence order), its grade-group records. -/
def specStats (df key_df : List RawRow) (assessment_type : String) : List QStat :=
  (uniqueFirst (pureGrades df)).flatMap (specGradeRecords df key_df assessment_type)

/-! ## Helper lemmas about the Except combinators -/

theorem mapE_ok_of_forall {f : α → Except String β} {g : α → β} :
    ∀ {l : List α}, (∀ a ∈ l, f a = .ok (g a)) → mapE f l = .ok (l.map g) := by
  intro l
  induction l with
  | nil => intro _; rfl
  | cons a t ih =>
    intro h
    have ha := h a (by simp)
    have ht := ih (fun x hx => h x (by simp [hx]))
    simp [mapE, ha, ht]

theorem filterE_ok_of_forall {p : α → Except String Bool} {q : α → Bool} :
    ∀ {l : List α}, (∀ a ∈ l, p a = .ok (q a)) → filterE p l = .ok (l.filter q) := by
  intro l
  induction l with
  | nil => intro _; rfl
  | cons a t ih =>
    intro h
    have ha := h a (by simp)
    have ht := ih (fun x hx => h x (by simp [hx]))
    by_cases hq : q a <;> simp [filterE, ha, ht, List.filter_cons, hq]

theorem foldlE_ok_of_forall {f : σ → α → Except String σ} {g : σ → α → σ} :
    ∀ {l : List α}, (∀ s a, a ∈ l → f s a = .ok (g s a)) →
      ∀ s, foldlE f s l = .ok (l.foldl g s) := by
  intro l
  induction l with
  | nil => intro _ s; rfl
  | cons a t ih =>
    intro h s
    have ha := h s a (by simp)
    have ht := ih (fun s' x hx => h s' x (by simp [hx]))
    simp [foldlE, ha, List.foldl_cons, ht]

theorem foldlE_congr {f g : σ → α → Except String σ} :
    ∀ {l : List α}, (∀ s a, a ∈ l → f s a = g s a) →
      ∀ s, foldlE f s l = foldlE g s l := by
  intro l
  induction l with
  | nil => intro _ s; rfl
  | cons a t ih =>
    intro h s
    have ha := h s a (by simp)
    have ht := ih (fun s' x hx => h s' x (by simp [hx]))
    simp only [foldlE, ha]
    cases g s a with
    | error e => rfl
    | ok s' => exact ht s'

theorem foldlE_error_of_head {f : σ → α → Except String σ} {s : σ} {a : α} {l : List α}
    {e : String} (h : f s a = .error e) : foldlE f s (a :: l) = .error e := by
  simp [foldlE, h]

theorem mapE_error_of_head {f : α → Except String β} {a : α} {l : List α} {e : String}
    (h : f a = .error e) : mapE f (a :: l) = .error e := by
  simp [mapE, h]

/-- Splitting a paired accumulation into two sums. -/
theorem foldlE_pair_sums {step : Nat × Nat → α → Except String (Nat × Nat)}
    {fS fM : α → Nat} :
    ∀ {l : List α}, (∀ acc a, a ∈ l → step acc a = .ok (acc.1 + fS a, acc.2 + fM a)) →
      ∀ acc : Nat × Nat,
        foldlE step acc l = .ok (acc.1 + (l.map fS).sum, acc.2 + (l.map fM).sum) := by
  intro l
  induction l with
  | nil => intro _ acc; simp [foldlE]
  | cons a t ih =>
    intro h acc
    have ha := h acc a (by simp)
    have ht := ih (fun acc' x hx => h acc' x (by simp [hx])) (acc.1 + fS a, acc.2 + fM a)
    simp [foldlE, ha, ht, Nat.add_assoc]

/-! ## Helper lemmas about lookups -/

theorem lookup_cons_self {v : PyVal} {r : RawRow} {c : String} :
    ((c, v) :: r).lookup c = some v := by
  simp [List.lookup]

theorem lookup_cons_ne {v : PyVal} {r : RawRow} {c c' : String} (h : c' ≠ c) :
    ((c, v) :: r).lookup c' = r.lookup c' := by
  simp [List.lookup, beq_false_of_ne h]

theorem rowGetE_cons_self {v : PyVal} {r : RawRow} {c : String} :
    rowGetE ((c, v) :: r) c = .ok v := by
  simp [rowGetE, lookup_cons_self]

/-- The question-column name never collides with the `Grade` column. -/
theorem qcol_ne_grade (n : Nat) : ("Q" ++ toString n) ≠ "Grade" := by
  intro h
  have hd := congrArg String.data h
  rw [String.data_append] at hd
  have : 'Q' = 'G' := by
    have : 'Q' :: (toString n).data = 'G' :: "rade".data := hd
    exact (List.cons.injEq _ _ _ _ ▸ this).1
  simp at this

/-! ## Claim C1 -/

/-- Auxiliary: `jobjGetD` with an absent key returns the default. -/
theorem jobjGetD_of_none {fields : List (String × JsonVal)} {k : String} {d : JsonVal}
    (h : jobjGet fields k = none) : jobjGetD fields k d = d := by
  simp [jobjGetD, h]

/-- Auxiliary: `jobjGetD` with a present key returns its value. -/
theorem jobjGetD_of_some {fields : List (String × JsonVal)} {k : String} {d v : JsonVal}
    (h : jobjGet fields k = some v) : jobjGetD fields k d = v := by
  simp [jobjGetD, h]

/-- C1 (counterexample): the cell text `{}` parses as a structured object with
no `"value"` field, yet `extract_answer_value` returns `some (-1)` — the
`int()` coercion of the `.get` default `-1` — and not `None` as the claim
states. -/
theorem C1_counterexample :
    json_loads (clean_cell "\x7b\x7d") = some (.jobj []) ∧
    jobjGet [] "value" = none ∧
    extract_answer_value (.pstr "\x7b\x7d") = some (-1) ∧
    (some (-1) : Option Int) ≠ none := by
  exact ⟨rfl, rfl, by decide, by decide⟩

/-- C1 (amended): for every raw answer cell whose text parses as a structured
object with no `"value"` field, `extract_answer_value` returns `-1` (the
coerced `.get` default), not `None`. -/
theorem C1_missing_value_field_yields_neg_one (s : String)
    (fields : List (String × JsonVal))
    (hparse : json_loads (clean_cell s) = some (.jobj fields))
    (hmiss : jobjGet fields "value" = none) :
    extract_answer_value (.pstr s) = some (-1) := by
  simp only [extract_answer_value, pyStr, hparse, jobjGetD_of_none hmiss, pyIntCoerce]

/-- C1 (witness): the amended theorem applied to the concrete cell `{}`. -/
theorem C1_witness : extract_answer_value (.pstr "\x7b\x7d") = some (-1) :=
  C1_missing_value_field_yields_neg_one "\x7b\x7d" [] rfl rfl

/-! ## Claim C10 -/

/-- C10: when the cell text parses as a JSON object with a `"value"` field,
`extract_answer_value` returns exactly the Python `int()` coercion of that
field (`pyIntCoerce`), so a float truncates toward zero (`2.9 → 2`,
`-2.9 → -2`), a numeric string parses (`"3" → 3`), and `None` arises only
when the coercion itself fails. -/
theorem C10_decode_is_int_coercion :
    (∀ (s : String) (fields : List (String × JsonVal)) (v : JsonVal),
        json_loads (clean_cell s) = some (.jobj fields) →
        jobjGet fields "value" = some v →
        extract_answer_value (.pstr s) = pyIntCoerce v) ∧
    extract_answer_value (.pstr "\x7b\"value\": 2.9\x7d") = some 2 ∧
    extract_answer_value (.pstr "\x7b\"value\": -2.9\x7d") = some (-2) ∧
    extract_answer_value (.pstr "\x7b\"value\": \"3\"\x7d") = some 3 := by
  refine ⟨fun s fields v hparse hval => ?_, by decide, by decide, by decide⟩
  simp only [extract_answer_value, pyStr, hparse, jobjGetD_of_some hval]

/-- C10 (witness): the general part applied to a concrete object cell. -/
theorem C10_witness :
    extract_answer_value (.pstr "\x7b\"value\": 7\x7d") = pyIntCoerce (.jint 7) :=
  C10_decode_is_int_coercion.1 "\x7b\"value\": 7\x7d" [("value", .jint 7)] (.jint 7) rfl rfl

/-! ## Claim C4 -/

/-- C4: `extract_answer_value` is total (no exception escapes) and collapses
every failure mode to `None`: a missing/NaN cell, a parse failure, a parse
result that is not an object, or a failing `int()` coercion of the extracted
field; conversely those are the only ways it returns `None`. -/
theorem C4_decode_never_raises_all_failures_none :
    extract_answer_value .na = none ∧
    extract_answer_value (.pstr "") = none ∧
    ∀ s : String, extract_answer_value (.pstr s) = none ↔
      (json_loads (clean_cell s) = none ∨
       (∃ v, json_loads (clean_cell s) = some v ∧ ∀ fields, v ≠ .jobj fields) ∨
       (∃ fields, json_loads (clean_cell s) = some (.jobj fields) ∧
          pyIntCoerce (jobjGetD fields "value" (.jint (-1))) = none)) := by
  refine ⟨rfl, by decide, fun s => ?_⟩
  cases hj : json_loads (clean_cell s) with
  | none =>
    simp [extract_answer_value, pyStr, hj]
  | some v =>
    cases v with
    | jobj fields =>
      simp only [extract_answer_value, pyStr, hj]
      constructor
      · intro h
        exact Or.inr (Or.inr ⟨fields, rfl, h⟩)
      · intro h
        rcases h with h | ⟨w, hw, hno⟩ | ⟨fields', hf, hc⟩
        · exact absurd h (by simp)
        · cases hw
          exact absurd rfl (hno fields)
        · cases hf
          exact hc
    | jnull =>
      simp [extract_answer_value, pyStr, hj]
    | jbool b =>
      simp [extract_answer_value, pyStr, hj]
    | jint n =>
      simp [extract_answer_value, pyStr, hj]
    | jnum m e =>
      simp [extract_answer_value, pyStr, hj]
    | jinf p =>
      simp [extract_answer_value, pyStr, hj]
    | jnan =>
      simp [extract_answer_value, pyStr, hj]
    | jstr t =>
      simp [extract_answer_value, pyStr, hj]
    | jarr xs =>
      simp [extract_answer_value, pyStr, hj]

/-- C4 (witness): the characterisation applied to a concrete non-JSON cell. -/
theorem C4_witness : extract_answer_value (.pstr "not json") = none :=
  (C4_decode_never_raises_all_failures_none.2.2 "not json").mpr (Or.inl rfl)

/-! ## Claim C9 -/

/-- One question-loop iteration either leaves the accumulator unchanged or
increments `total_questions` by one and `score` by at most one. -/
theorem scoreStep_cases {row : RawRow} {rk : List RawRow} {acc out : Nat × Nat} {i : Nat}
    (h : scoreStep row rk acc i = .ok out) :
    out = acc ∨ (out.2 = acc.2 + 1 ∧ (out.1 = acc.1 ∨ out.1 = acc.1 + 1)) := by
  unfold scoreStep at h
  split at h
  · cases h
    exact Or.inl rfl
  · split at h
    · cases h
    · split at h
      · cases h
        exact Or.inl rfl
      · split at h
        · cases h
        · cases h
          refine Or.inr ⟨rfl, ?_⟩
          split <;> simp

/-- Folding the question loop preserves `score ≤ total` and adds at most one
to `total` per question. -/
theorem foldlE_scoreStep_bound {row : RawRow} {rk : List RawRow} :
    ∀ {l : List Nat} {acc out : Nat × Nat},
      foldlE (scoreStep row rk) acc l = .ok out →
      acc.1 ≤ acc.2 → out.1 ≤ out.2 ∧ out.2 ≤ acc.2 + l.length := by
  intro l
  induction l with
  | nil =>
    intro acc out h hle
    simp only [foldlE, Except.ok.injEq] at h
    cases h
    exact ⟨hle, by simp⟩
  | cons a t ih =>
    intro acc out h hle
    unfold foldlE at h
    split at h
    · cases h
    · next acc' heq =>
      rcases scoreStep_cases heq with h1 | ⟨h2, h3⟩
      · subst h1
        have hb := ih h hle
        refine ⟨hb.1, ?_⟩
        have := hb.2
        simp only [List.length_cons]
        omega
      · have hle' : acc'.1 ≤ acc'.2 := by omega
        have hb := ih h hle'
        refine ⟨hb.1, ?_⟩
        have := hb.2
        simp only [List.length_cons]
        omega

/-- C9: whenever the scorer returns a pair `(score, max_score)`, it satisfies
`0 ≤ score ≤ max_score ≤ 10`. -/
theorem C9_score_bounds (row : RawRow) (key_df : List RawRow) (assessment_type : String)
    (s t : Nat) (h : calculate_row_score row key_df assessment_type = .ok (s, t)) :
    0 ≤ s ∧ s ≤ t ∧ t ≤ 10 := by
  unfold calculate_row_score at h
  split at h
  · cases h
  · split at h
    · cases h
    · have hb := foldlE_scoreStep_bound h (by simp)
      exact ⟨Nat.zero_le s, hb.1, by simpa [List.length_range] using hb.2⟩

/-- C9 (witness): the bound applied to a concrete row and key. -/
theorem C9_witness : 0 ≤ 0 ∧ 0 ≤ 0 ∧ 0 ≤ 10 :=
  C9_score_bounds [("Grade", .pint 3)] [] "Baseline" 0 0 rfl

/-! ## Claim C5 -/

/-- With no relevant key rows, every question-loop iteration is a no-op. -/
theorem scoreStep_empty_key {row : RawRow} (acc : Nat × Nat) (i : Nat) :
    scoreStep row [] acc i = .ok acc := by
  unfold scoreStep
  split
  · rfl
  · rfl

theorem foldlE_const_ok {f : σ → α → Except String σ}
    (h : ∀ s a, f s a = .ok s) : ∀ (l : List α) (s : σ), foldlE f s l = .ok s := by
  intro l
  induction l with
  | nil => intro s; rfl
  | cons a t ih => intro s; simp [foldlE, h, ih]

/-- C5: when a student's grade/phase selects no key rows, the scorer returns
`(0, 0)`, the derived `Percentage = (0 / 0) * 100` is `NaN` (not a raised
division error: the pandas division is total), and the `NaN` propagates
through the downstream `Growth` subtraction in either operand position. -/
theorem C5_no_key_entries_gives_nan (row : RawRow) (key_df : List RawRow)
    (assessment_type : String) (g : PyVal)
    (hg : rowGetE row "Grade" = .ok g)
    (hempty : filterGA key_df (gradeCode g) assessment_type = .ok []) :
    calculate_row_score row key_df assessment_type = .ok (0, 0) ∧
    pyPct 0 0 = .nan ∧
    (∀ p : PFloat, pfSub p .nan = .nan) ∧
    (∀ p : PFloat, pfSub .nan p = .nan) := by
  refine ⟨?_, rfl, fun p => by cases p <;> rfl, fun p => by cases p <;> rfl⟩
  unfold calculate_row_score
  simp only [hg, hempty]
  exact foldlE_const_ok scoreStep_empty_key _ _

/-- C5 (witness): the `(0, 0)` score for a concrete row with an empty key. -/
theorem C5_witness : calculate_row_score [("Grade", .pint 3)] [] "Baseline" = .ok (0, 0) :=
  (C5_no_key_entries_gives_nan [("Grade", .pint 3)] [] "Baseline" (.pint 3) rfl rfl).1

/-! ## Claim C7 -/

/-- The question-loop body never reads the `Grade` binding of the row. -/
theorem scoreStep_grade_cons {qs : RawRow} {rk : List RawRow} (v : PyVal)
    (acc : Nat × Nat) (i : Nat) :
    scoreStep (("Grade", v) :: qs) rk acc i = scoreStep qs rk acc i := by
  unfold scoreStep
  rw [lookup_cons_ne (qcol_ne_grade (i + 1))]

/-- C7: the scorer matches a student's grade against the key's textual code by
prefixing with `G` via `str()`, so a numeric grade `n` and its textual form
`str(n)` produce the same grade code, select the same key rows, and give the
same score; in particular a key row with Grade `"G5"` (and the right phase)
matches both the numeric grade `5` and the textual grade `"5"`. -/
theorem C7_grade_prefix_matching (qs : RawRow) (key_df : List RawRow)
    (assessment_type : String) (n : Int) :
    gradeCode (.pint n) = "G" ++ toString n ∧
    gradeCode (.pstr (toString n)) = gradeCode (.pint n) ∧
    calculate_row_score (("Grade", PyVal.pint n) :: qs) key_df assessment_type =
      calculate_row_score (("Grade", PyVal.pstr (toString n)) :: qs) key_df assessment_type ∧
    (∀ k : RawRow, k.lookup "Grade" = some (.pstr ("G" ++ toString n)) →
      k.lookup "Assessment" = some (.pstr assessment_type) →
      matchesGA k (gradeCode (.pint n)) assessment_type = .ok true ∧
      matchesGA k (gradeCode (.pstr (toString n))) assessment_type = .ok true) := by
  refine ⟨rfl, rfl, ?_, fun k h1 h2 => ?_⟩
  · unfold calculate_row_score
    rw [rowGetE_cons_self, rowGetE_cons_self]
    dsimp only
    have hgc : gradeCode (PyVal.pstr (toString n)) = gradeCode (PyVal.pint n) := rfl
    rw [hgc]
    cases hf : filterGA key_df (gradeCode (PyVal.pint n)) assessment_type with
    | error e => rfl
    | ok rk =>
      dsimp only
      exact foldlE_congr (fun acc i _ =>
        (scoreStep_grade_cons (PyVal.pint n) acc i).trans
          (scoreStep_grade_cons (PyVal.pstr (toString n)) acc i).symm) (0, 0)
  · constructor <;> simp [matchesGA, rowGetE, h1, h2, cellEqStr, gradeCode, pyStr]

/-- C7 (witness): a concrete `"G5"` key row matches the numeric grade `5`. -/
theorem C7_witness :
    matchesGA [("Grade", PyVal.pstr "G5"), ("Assessment", PyVal.pstr "Baseline")]
      (gradeCode (.pint 5)) "Baseline" = .ok true :=
  ((C7_grade_prefix_matching [] [] "Baseline" 5).2.2.2
    [("Grade", PyVal.pstr "G5"), ("Assessment", PyVal.pstr "Baseline")] rfl rfl).1

/-! ## Claim C3 -/

/-- On a well-formed key row the grade/assessment mask never raises and agrees
with its pure form. -/
theorem matchesGA_ok_of_WF {k : RawRow} {gc a : String} (h : WFKeyRow k) :
    matchesGA k gc a = .ok (bMatchesGA k gc a) := by
  obtain ⟨h1, h2, -, -⟩ := h
  obtain ⟨g, hg⟩ := Option.isSome_iff_exists.mp h1
  obtain ⟨av, ha⟩ := Option.isSome_iff_exists.mp h2
  simp [matchesGA, bMatchesGA, rowGetE, hg, ha]

/-- On a well-formed key row the question mask never raises and agrees with
its pure form. -/
theorem matchesQ_ok_of_WF {k : RawRow} {q : Nat} (h : WFKeyRow k) :
    matchesQ k q = .ok (bMatchesQ k q) := by
  obtain ⟨-, -, h3, -⟩ := h
  obtain ⟨v, hv⟩ := Option.isSome_iff_exists.mp h3
  simp [matchesQ, bMatchesQ, rowGetE, hv]

/-- Under a well-formed key, one question-loop iteration computes exactly the
claim-side per-question contributions. -/
theorem scoreStep_spec {row : RawRow} {key_df : List RawRow} {gc a : String}
    (hWF : ∀ k ∈ key_df, WFKeyRow k) (acc : Nat × Nat) (i : Nat) :
    scoreStep row (key_df.filter (fun k => bMatchesGA k gc a)) acc i =
      .ok (acc.1 + specQScore row key_df gc a (i + 1),
           acc.2 + specQMax row key_df gc a (i + 1)) := by
  have hQ : filterE (fun k => matchesQ k (i + 1))
        (key_df.filter (fun k => bMatchesGA k gc a)) =
      .ok ((key_df.filter (fun k => bMatchesGA k gc a)).filter
        (fun k => bMatchesQ k (i + 1))) :=
    filterE_ok_of_forall (fun k hk => matchesQ_ok_of_WF (hWF k (List.mem_filter.mp hk).1))
  unfold scoreStep specQScore specQMax keyEntry
  cases hl : row.lookup ("Q" ++ toString (i + 1)) with
  | none => simp
  | some cell =>
    rw [hQ]
    dsimp only
    cases hh : ((key_df.filter (fun k => bMatchesGA k gc a)).filter
        (fun k => bMatchesQ k (i + 1))).head? with
    | none => simp
    | some kr =>
      have hkr : kr ∈ key_df :=
        (List.mem_filter.mp (List.mem_filter.mp (List.mem_of_mem_head? hh)).1).1
      obtain ⟨cv, hcv⟩ := Option.isSome_iff_exists.mp (hWF kr hkr).2.2.2
      simp [rowGetE, hcv]

/-- The question-column names of the loop never collide with a `Q11` column. -/
theorem qcol_ne_q11 (i : Nat) (hi : i < 10) : ("Q" ++ toString (i + 1)) ≠ "Q11" := by
  interval_cases i <;> decide

/-- A `Q11` binding is invisible to the question loop. -/
theorem scoreStep_q11_cons {row : RawRow} {rk : List RawRow} (cell : PyVal)
    (acc : Nat × Nat) (i : Nat) (hi : i < 10) :
    scoreStep (("Q11", cell) :: row) rk acc i = scoreStep row rk acc i := by
  unfold scoreStep
  rw [lookup_cons_ne (qcol_ne_q11 i hi)]

/-- C3: under a well-formed key sheet, the scorer's result is exactly the sum
over question numbers `1..10` of the claim-side contributions: a question
contributes to `max_score` iff its column is present and a key entry exists
for `(grade, phase, question)`, and additionally to `score` iff the decoded
answer equals the correct value (a `None` decode never equals it); moreover an
extra `Q11` column never changes the result. -/
theorem C3_scorer_fixed_ten_questions (row : RawRow) (key_df : List RawRow)
    (assessment_type : String) (g : PyVal)
    (hg : row.lookup "Grade" = some g)
    (hWF : ∀ k ∈ key_df, WFKeyRow k) :
    calculate_row_score row key_df assessment_type =
      .ok (((List.range 10).map
              (fun i => specQScore row key_df (gradeCode g) assessment_type (i + 1))).sum,
           ((List.range 10).map
              (fun i => specQMax row key_df (gradeCode g) assessment_type (i + 1))).sum) ∧
    (∀ cell : PyVal,
      calculate_row_score (("Q11", cell) :: row) key_df assessment_type =
        calculate_row_score row key_df assessment_type) := by
  constructor
  · have hGA : filterGA key_df (gradeCode g) assessment_type =
        .ok (key_df.filter (fun k => bMatchesGA k (gradeCode g) assessment_type)) :=
      filterE_ok_of_forall (fun k hk => matchesGA_ok_of_WF (hWF k hk))
    unfold calculate_row_score
    rw [show rowGetE row "Grade" = .ok g from by unfold rowGetE; rw [hg]]
    dsimp only
    rw [hGA]
    dsimp only
    simpa using foldlE_pair_sums (fun acc i hi => scoreStep_spec hWF acc i) (0, 0)
  · intro cell
    unfold calculate_row_score
    rw [show rowGetE (("Q11", cell) :: row) "Grade" = rowGetE row "Grade" from by
      unfold rowGetE; rw [lookup_cons_ne (by decide)]]
    cases hr : rowGetE row "Grade" with
    | error e => rfl
    | ok g' =>
      dsimp only
      cases hf : filterGA key_df (gradeCode g') assessment_type with
      | error e => rfl
      | ok rk =>
        dsimp only
        exact foldlE_congr
          (fun acc i hi => scoreStep_q11_cons cell acc i (List.mem_range.mp hi)) (0, 0)

/-- C3 (witness): a concrete one-question workbook where the decomposition
evaluates to a `1/1` score. -/
theorem C3_witness :
    calculate_row_score
      [("Grade", PyVal.pint 3), ("Q1", PyVal.pstr "\x7b\"value\": 2\x7d")]
      [[("Grade", PyVal.pstr "G3"), ("Assessment", PyVal.pstr "Baseline"),
        ("Question #", PyVal.pint 1), ("Correct Value", PyVal.pint 2)]] "Baseline" =
      .ok (((List.range 10).map
              (fun i => specQScore
                [("Grade", PyVal.pint 3), ("Q1", PyVal.pstr "\x7b\"value\": 2\x7d")]
                [[("Grade", PyVal.pstr "G3"), ("Assessment", PyVal.pstr "Baseline"),
                  ("Question #", PyVal.pint 1), ("Correct Value", PyVal.pint 2)]]
                (gradeCode (.pint 3)) "Baseline" (i + 1))).sum,
           ((List.range 10).map
              (fun i => specQMax
                [("Grade", PyVal.pint 3), ("Q1", PyVal.pstr "\x7b\"value\": 2\x7d")]
                [[("Grade", PyVal.pstr "G3"), ("Assessment", PyVal.pstr "Baseline"),
                  ("Question #", PyVal.pint 1), ("Correct Value", PyVal.pint 2)]]
                (gradeCode (.pint 3)) "Baseline" (i + 1))).sum) :=
  (C3_scorer_fixed_ten_questions
    [("Grade", PyVal.pint 3), ("Q1", PyVal.pstr "\x7b\"value\": 2\x7d")]
    [[("Grade", PyVal.pstr "G3"), ("Assessment", PyVal.pstr "Baseline"),
      ("Question #", PyVal.pint 1), ("Correct Value", PyVal.pint 2)]]
    "Baseline" (.pint 3) rfl
    (by intro k hk; simp only [List.mem_singleton] at hk; subst hk;
        exact ⟨rfl, rfl, rfl, rfl⟩)).1

/-! ## Claim C2 -/

/-- The merged table's row count is the sum over baseline rows of the number
of endline rows sharing the Student ID. -/
theorem pd_merge_length (bs : List BLRec) (es : List ELRec) :
    (pd_merge bs es).length =
      (bs.map (fun b =>
        (es.filter (fun e => decide (e.studentId = b.studentId))).length)).sum := by
  simp [pd_merge, List.length_flatMap, Function.comp_def]

/-- A list whose keys are distinct has at most one element with any given
key. -/
theorem filter_key_length_le_one {α : Type _} (key : α → PyVal) :
    ∀ {l : List α}, (l.map key).Nodup → ∀ x : PyVal,
      (l.filter (fun a => decide (key a = x))).length ≤ 1 := by
  intro l
  induction l with
  | nil => intro _ x; simp
  | cons a t ih =>
    intro h x
    rw [List.map_cons, List.nodup_cons] at h
    by_cases hax : key a = x
    · have hnil : t.filter (fun y => decide (key y = x)) = [] := by
        rw [List.filter_eq_nil_iff]
        intro y hy hxy
        exact h.1 (hax ▸ (by simpa using hxy) ▸ List.mem_map_of_mem key hy)
      simp [List.filter_cons, hax, hnil]
    · simpa [List.filter_cons, hax] using ih h.2 x

/-- A filtered length as a sum of indicator values. -/
theorem length_filter_eq_sum_ite {α : Type _} (p : α → Bool) :
    ∀ l : List α, (l.filter p).length = (l.map (fun a => if p a then 1 else 0)).sum := by
  intro l
  induction l with
  | nil => rfl
  | cons a t ih =>
    by_cases hp : p a <;> simp [List.filter_cons, hp, ih, Nat.add_comm]

/-- Sums of pointwise-added maps split. -/
theorem sum_map_add {α : Type _} (f g : α → Nat) :
    ∀ l : List α, (l.map (fun a => f a + g a)).sum = (l.map f).sum + (l.map g).sum := by
  intro l
  induction l with
  | nil => rfl
  | cons a t ih => simp [ih]; omega

/-- Double counting of matching pairs: summing matches of each baseline row
over the endline rows equals summing matches of each endline row over the
baseline rows. -/
theorem sum_count_comm {α β : Type _} (ka : α → PyVal) (kb : β → PyVal) :
    ∀ (as' : List α) (bs' : List β),
      (as'.map (fun a => (bs'.filter (fun b => decide (kb b = ka a))).length)).sum =
      (bs'.map (fun b => (as'.filter (fun a => decide (ka a = kb b))).length)).sum := by
  intro as'
  induction as' with
  | nil =>
    intro bs'
    induction bs' with
    | nil => rfl
    | cons b t ih => simp [ih]
  | cons a t ih =>
    intro bs'
    have hsplit :
        (bs'.map (fun b => ((a :: t).filter (fun x => decide (ka x = kb b))).length)).sum =
        (bs'.map (fun b => (if decide (kb b = ka a) then 1 else 0) +
            (t.filter (fun x => decide (ka x = kb b))).length)).sum := by
      refine congrArg List.sum (List.map_congr_left ?_)
      intro b _
      by_cases hb : ka a = kb b
      · simp [List.filter_cons, hb, eq_comm, Nat.add_comm]
      · have hb' : ¬ kb b = ka a := fun hc => hb hc.symm
        simp [List.filter_cons, hb, hb']
    rw [List.map_cons, List.sum_cons, hsplit, sum_map_add, ih,
        length_filter_eq_sum_ite]

/-- Summing the constant 1 over a list gives its length. -/
theorem sum_map_one {α : Type _} :
    ∀ l : List α, (l.map (fun _ => (1 : Nat))).sum = l.length := by
  intro l
  induction l with
  | nil => rfl
  | cons a t ih => simp [ih, Nat.add_comm]

/-- Under distinct endline Student IDs, a baseline row matched by some endline
row contributes exactly one merged row. -/
theorem filter_key_length_eq_one {α : Type _} (key : α → PyVal) {l : List α}
    (h : (l.map key).Nodup) {x : PyVal} (hx : ∃ a ∈ l, key a = x) :
    (l.filter (fun a => decide (key a = x))).length = 1 := by
  obtain ⟨a, ha, hk⟩ := hx
  have hmem : a ∈ l.filter (fun a => decide (key a = x)) :=
    List.mem_filter.mpr ⟨ha, by simp [hk]⟩
  have hpos : 1 ≤ (l.filter (fun a => decide (key a = x))).length :=
    List.length_pos.mpr (fun hnil => by simp [hnil] at hmem)
  exact Nat.le_antisymm (filter_key_length_le_one key h x) hpos

/-- If every baseline Student ID occurs among the (distinct) endline ones,
there are no more baseline rows than endline rows. -/
theorem length_le_of_keys_subset {α β : Type _} (ka : α → PyVal) (kb : β → PyVal)
    {as' : List α} {bs' : List β} (ha : (as'.map ka).Nodup)
    (hsub : ∀ a ∈ as', ∃ b ∈ bs', kb b = ka a) :
    as'.length ≤ bs'.length := by
  have hss : as'.map ka ⊆ bs'.map kb := by
    intro x hx
    obtain ⟨a, haa, hxa⟩ := List.mem_map.mp hx
    obtain ⟨b, hbb, hba⟩ := hsub a haa
    exact List.mem_map.mpr ⟨b, hbb, by rw [hba, hxa]⟩
  have := (ha.subperm hss).length_le
  simpa using this

/-- C2 (amended): when Student IDs are pairwise distinct within the baseline
rows and within the endline rows, the merged growth table has at most
`min(|baseline|, |endline|)` rows, and if moreover every baseline Student ID
also appears in the endline rows then the count equals `|baseline|`, which is
then the minimum. -/
theorem C2_join_rowcount_bound (bs : List BLRec) (es : List ELRec)
    (hb : (bs.map BLRec.studentId).Nodup) (he : (es.map ELRec.studentId).Nodup) :
    (pd_merge bs es).length ≤ min bs.length es.length ∧
    ((∀ b ∈ bs, ∃ e ∈ es, e.studentId = b.studentId) →
      (pd_merge bs es).length = bs.length ∧
      (pd_merge bs es).length = min bs.length es.length) := by
  have hlen := pd_merge_length bs es
  have hle_bs : (pd_merge bs es).length ≤ bs.length := by
    rw [hlen]
    calc (bs.map (fun b =>
            (es.filter (fun e => decide (e.studentId = b.studentId))).length)).sum
        ≤ (bs.map (fun _ => (1 : Nat))).sum :=
          List.sum_le_sum (fun b _ => filter_key_length_le_one ELRec.studentId he b.studentId)
      _ = bs.length := sum_map_one bs
  have hle_es : (pd_merge bs es).length ≤ es.length := by
    rw [hlen, sum_count_comm BLRec.studentId ELRec.studentId bs es]
    calc (es.map (fun e =>
            (bs.filter (fun b => decide (b.studentId = e.studentId))).length)).sum
        ≤ (es.map (fun _ => (1 : Nat))).sum :=
          List.sum_le_sum (fun e _ => filter_key_length_le_one BLRec.studentId hb e.studentId)
      _ = es.length := sum_map_one es
  refine ⟨le_min hle_bs hle_es, fun hsub => ?_⟩
  have heq : (pd_merge bs es).length = bs.length := by
    rw [hlen]
    have hmap : bs.map (fun b =>
        (es.filter (fun e => decide (e.studentId = b.studentId))).length) =
        bs.map (fun _ => (1 : Nat)) := by
      refine List.map_congr_left ?_
      intro b hbm
      exact filter_key_length_eq_one ELRec.studentId he (hsub b hbm)
    rw [hmap, sum_map_one]
  have hble : bs.length ≤ es.length :=
    length_le_of_keys_subset BLRec.studentId ELRec.studentId hb
      (fun b hbm => hsub b hbm)
  exact ⟨heq, by rw [heq, Nat.min_eq_left hble]⟩

/-- C2 (counterexample): the claim fails as stated.  With duplicate Student
IDs the inner join produces cross products, so two baseline and two endline
rows sharing one ID merge into 4 > min(2,2) rows; and with distinct IDs
`([1,2]` vs `[1])` the count equals `min` although baseline ID 2 is absent
from the endline rows, refuting the "exactly when" direction. -/
theorem C2_counterexample :
    ¬ specJoinClaim
        [{ studentId := .pint 1, state := .na, center := .na, grade := .na,
           percentage := .nan, score := 0 },
         { studentId := .pint 1, state := .na, center := .na, grade := .na,
           percentage := .nan, score := 0 }]
        [{ studentId := .pint 1, percentage := .nan, score := 0 },
         { studentId := .pint 1, percentage := .nan, score := 0 }] ∧
    ¬ specJoinClaim
        [{ studentId := .pint 1, state := .na, center := .na, grade := .na,
           percentage := .nan, score := 0 },
         { studentId := .pint 2, state := .na, center := .na, grade := .na,
           percentage := .nan, score := 0 }]
        [{ studentId := .pint 1, percentage := .nan, score := 0 }] := by
  constructor
  · intro h
    exact absurd h.1 (by decide)
  · intro h
    have h2 := h.2.mp (by decide)
    have := h2 { studentId := .pint 2, state := .na, center := .na, grade := .na,
                 percentage := .nan, score := 0 } (by decide)
    exact absurd this (by decide)

/-- C2 (witness): the amended bound applied to concrete distinct-ID tables
where every baseline ID appears in the endline table. -/
theorem C2_witness :
    (pd_merge
      [{ studentId := .pint 1, state := .na, center := .na, grade := .na,
         percentage := .nan, score := 0 }]
      [{ studentId := .pint 1, percentage := .nan, score := 0 },
       { studentId := .pint 2, percentage := .nan, score := 0 }]).length =
    min
      [{ studentId := .pint 1, state := .na, center := .na, grade := .na,
         percentage := .nan, score := 0 : BLRec }].length
      [{ studentId := .pint 1, percentage := .nan, score := 0 : ELRec },
       { studentId := .pint 2, percentage := .nan, score := 0 }].length :=
  ((C2_join_rowcount_bound
      [{ studentId := .pint 1, state := .na, center := .na, grade := .na,
         percentage := .nan, score := 0 }]
      [{ studentId := .pint 1, percentage := .nan, score := 0 },
       { studentId := .pint 2, percentage := .nan, score := 0 }]
      (by decide) (by decide)).2 (by decide)).2

/-! ## Claim C6 -/

/-- A scored sheet keeps exactly the raw rows it was given. -/
theorem scoreSheet_ok_raw {key_df : List RawRow} {assessment_type : String} :
    ∀ {df : List RawRow} {out : List ScoredRow},
      scoreSheet df key_df assessment_type = .ok out → out.map ScoredRow.raw = df := by
  intro df
  unfold scoreSheet
  split
  · intro out h; cases h
  · rename_i hne
    intro out
    clear hne
    induction df generalizing out with
    | nil => intro h; cases h; rfl
    | cons r t ih =>
      intro h
      unfold mapE at h
      split at h
      · cases h
      · rename_i b heq
        split at h
        · cases h
        · rename_i bs heq2
          cases h
          have hb : b.raw = r := by
            split at heq
            · cases heq
            · cases heq; rfl
          simp [hb, ih heq2]

/-- An empty sheet makes `zip(*...)` unpacking fail. -/
theorem scoreSheet_nil_error {key_df : List RawRow} {assessment_type : String} :
    scoreSheet [] key_df assessment_type =
      .error "not enough values to unpack (expected 2, got 0)" := rfl

/-- A missing `Grade` column on the first row aborts the scoring of a sheet. -/
theorem scoreSheet_error_of_no_grade {key_df : List RawRow} {assessment_type : String}
    {r : RawRow} {t : List RawRow} (h : r.lookup "Grade" = none) :
    ∃ e, scoreSheet (r :: t) key_df assessment_type = .error e := by
  refine ⟨"KeyError: " ++ "Grade", ?_⟩
  unfold scoreSheet
  rw [if_neg (by simp)]
  apply mapE_error_of_head
  simp [calculate_row_score, rowGetE, h]

/-- A baseline row missing one of the merge's selected identity columns makes
its column selection raise. -/
theorem selectBL_error_of_missing {s : ScoredRow}
    (h : s.raw.lookup "Student ID" = none ∨ s.raw.lookup "State" = none ∨
         s.raw.lookup "Center" = none ∨ s.raw.lookup "Grade" = none) :
    ∃ e, selectBL s = .error e := by
  unfold selectBL rowGetE
  rcases h with h | h | h | h
  · rw [h]
    exact ⟨_, rfl⟩
  · cases h1 : s.raw.lookup "Student ID" with
    | none => exact ⟨_, rfl⟩
    | some v =>
      rw [h]
      exact ⟨_, rfl⟩
  · cases h1 : s.raw.lookup "Student ID" with
    | none => exact ⟨_, rfl⟩
    | some v =>
      cases h2 : s.raw.lookup "State" with
      | none => exact ⟨_, rfl⟩
      | some v2 =>
        rw [h]
        exact ⟨_, rfl⟩
  · cases h1 : s.raw.lookup "Student ID" with
    | none => exact ⟨_, rfl⟩
    | some v =>
      cases h2 : s.raw.lookup "State" with
      | none => exact ⟨_, rfl⟩
      | some v2 =>
        cases h3 : s.raw.lookup "Center" with
        | none => exact ⟨_, rfl⟩
        | some v3 =>
          rw [h]
          exact ⟨_, rfl⟩

/-- An endline row missing `Student ID` makes its column selection raise. -/
theorem selectEL_error_of_missing {s : ScoredRow}
    (h : s.raw.lookup "Student ID" = none) : ∃ e, selectEL s = .error e := by
  refine ⟨"KeyError: " ++ "Student ID", ?_⟩
  unfold selectEL
  rw [show rowGetE s.raw "Student ID" = .error ("KeyError: " ++ "Student ID")
    from by unfold rowGetE; rw [h]]

/-- C6 (amended): every structural defect the code checks for — a missing
required sheet, a baseline sheet missing Student ID/State/Center/Grade, or an
endline sheet missing Student ID/Grade — aborts `process_workbook` with a
single error and no outputs (the `Except.error` result carries no partial
data). -/
theorem C6_structural_defect_aborts (xls : List (String × List RawRow))
    (hd : codeStructuralDefect xls) : ∃ e, process_workbook xls = .error e := by
  unfold process_workbook
  rcases hd with hs | ⟨bl, hbl, hcols⟩ | ⟨el, hel, hcols⟩
  · rcases hs with h | h | h
    · rw [Option.isNone_iff_eq_none] at h
      rw [h]
      exact ⟨_, rfl⟩
    · cases hb : xls.lookup "WB-Baseline-English" with
      | none => exact ⟨_, rfl⟩
      | some bl =>
        rw [Option.isNone_iff_eq_none] at h
        rw [h]
        exact ⟨_, rfl⟩
    · cases hb : xls.lookup "WB-Baseline-English" with
      | none => exact ⟨_, rfl⟩
      | some bl =>
        cases he : xls.lookup "WB-Endline-English" with
        | none => exact ⟨_, rfl⟩
        | some el =>
          rw [Option.isNone_iff_eq_none] at h
          rw [h]
          exact ⟨_, rfl⟩
  · rw [hbl]
    cases he : xls.lookup "WB-Endline-English" with
    | none => exact ⟨_, rfl⟩
    | some el =>
      cases hk : xls.lookup "AnswerKey" with
      | none => exact ⟨_, rfl⟩
      | some key =>
        dsimp only
        cases hsb : scoreSheet bl key "Baseline" with
        | error e => exact ⟨e, rfl⟩
        | ok sb =>
          cases bl with
          | nil => rw [scoreSheet_nil_error] at hsb; cases hsb
          | cons r t =>
            have hGradeCase : colMissingAll (r :: t) "Grade" → False := fun h => by
              obtain ⟨e, he'⟩ :=
                @scoreSheet_error_of_no_grade key "Baseline" r t (h r (by simp))
              rw [he'] at hsb
              cases hsb
            have hraw := scoreSheet_ok_raw hsb
            cases sb with
            | nil => simp at hraw
            | cons s0 st =>
              simp only [List.map_cons, List.cons.injEq] at hraw
              have hs0 : s0.raw = r := hraw.1
              cases hse : scoreSheet el key "Endline" with
              | error e => exact ⟨e, rfl⟩
              | ok se =>
                dsimp only
                have hsel : ∃ e, selectBL s0 = .error e := by
                  rcases hcols with h | h | h | h
                  · exact selectBL_error_of_missing (Or.inl (by rw [hs0]; exact h r (by simp)))
                  · exact selectBL_error_of_missing
                      (Or.inr (Or.inl (by rw [hs0]; exact h r (by simp))))
                  · exact selectBL_error_of_missing
                      (Or.inr (Or.inr (Or.inl (by rw [hs0]; exact h r (by simp)))))
                  · exact absurd h hGradeCase
                obtain ⟨e0, he0⟩ := hsel
                rw [mapE_error_of_head he0]
                exact ⟨e0, rfl⟩
  · cases hb : xls.lookup "WB-Baseline-English" with
    | none => exact ⟨_, rfl⟩
    | some bl =>
      rw [hel]
      cases hk : xls.lookup "AnswerKey" with
      | none => exact ⟨_, rfl⟩
      | some key =>
        dsimp only
        cases hsb : scoreSheet bl key "Baseline" with
        | error e => exact ⟨e, rfl⟩
        | ok sb =>
          cases hse : scoreSheet el key "Endline" with
          | error e => exact ⟨e, rfl⟩
          | ok se =>
            cases el with
            | nil => rw [scoreSheet_nil_error] at hse; cases hse
            | cons r t =>
              rcases hcols with h | h
              · have hraw := scoreSheet_ok_raw hse
                cases se with
                | nil => simp at hraw
                | cons s0 st =>
                  simp only [List.map_cons, List.cons.injEq] at hraw
                  have hs0 : s0.raw = r := hraw.1
                  dsimp only
                  cases hmb : mapE selectBL sb with
                  | error e => exact ⟨e, rfl⟩
                  | ok blSel =>
                    obtain ⟨e0, he0⟩ := selectEL_error_of_missing
                      (s := s0) (by rw [hs0]; exact h r (by simp))
                    rw [mapE_error_of_head he0]
                    exact ⟨e0, rfl⟩
              · obtain ⟨e, he'⟩ :=
                  @scoreSheet_error_of_no_grade key "Endline" r t (h r (by simp))
                rw [he'] at hse
                cases hse

/-- C6 (counterexample): a workbook whose (nonempty) endline sheet is missing
the required columns `State` and `Center` is a structural defect in the
claim's sense, yet `process_workbook` succeeds and returns full outputs — the
endline `State`/`Center` columns are never read, so no error is surfaced and
the outputs are not absent. -/
theorem C6_counterexample :
    specStructuralDefect
      [("WB-Baseline-English",
        [[("Student ID", PyVal.pint 1), ("State", PyVal.pstr "S"),
          ("Center", PyVal.pstr "C"), ("Grade", PyVal.pint 3)]]),
       ("WB-Endline-English",
        [[("Student ID", PyVal.pint 1), ("Grade", PyVal.pint 3)]]),
       ("AnswerKey", ([] : List RawRow))] ∧
    exceptIsOk (process_workbook
      [("WB-Baseline-English",
        [[("Student ID", PyVal.pint 1), ("State", PyVal.pstr "S"),
          ("Center", PyVal.pstr "C"), ("Grade", PyVal.pint 3)]]),
       ("WB-Endline-English",
        [[("Student ID", PyVal.pint 1), ("Grade", PyVal.pint 3)]]),
       ("AnswerKey", ([] : List RawRow))]) = true ∧
    ∀ e, process_workbook
      [("WB-Baseline-English",
        [[("Student ID", PyVal.pint 1), ("State", PyVal.pstr "S"),
          ("Center", PyVal.pstr "C"), ("Grade", PyVal.pint 3)]]),
       ("WB-Endline-English",
        [[("Student ID", PyVal.pint 1), ("Grade", PyVal.pint 3)]]),
       ("AnswerKey", ([] : List RawRow))] ≠ .error e := by
  refine ⟨?_, rfl, fun e h => ?_⟩
  · refine Or.inr (Or.inr ⟨[[("Student ID", PyVal.pint 1), ("Grade", PyVal.pint 3)]],
      rfl, by decide, Or.inr (Or.inl ?_)⟩)
    intro r hr
    simp only [List.mem_singleton] at hr
    subst hr
    rfl
  · have hok : exceptIsOk (process_workbook
      [("WB-Baseline-English",
        [[("Student ID", PyVal.pint 1), ("State", PyVal.pstr "S"),
          ("Center", PyVal.pstr "C"), ("Grade", PyVal.pint 3)]]),
       ("WB-Endline-English",
        [[("Student ID", PyVal.pint 1), ("Grade", PyVal.pint 3)]]),
       ("AnswerKey", ([] : List RawRow))]) = true := rfl
    rw [h] at hok
    exact absurd hok (by simp [exceptIsOk])

/-- C6 (witness): the amended theorem applied to an empty workbook (all three
sheets missing). -/
theorem C6_witness : ∃ e, process_workbook [] = .error e :=
  C6_structural_defect_aborts [] (Or.inl (Or.inl rfl))

/-! ## Claim C8 -/

/-- Effectful fold appending optional records equals a `filterMap`. -/
theorem foldlE_append_toList {α β : Type _} {f : α → Option β}
    {step : List β → α → Except String (List β)} :
    ∀ {l : List α}, (∀ acc a, a ∈ l → step acc a = .ok (acc ++ (f a).toList)) →
      ∀ acc, foldlE step acc l = .ok (acc ++ l.filterMap f) := by
  intro l
  induction l with
  | nil => intro _ acc; simp [foldlE]
  | cons a t ih =>
    intro h acc
    have ha := h acc a (by simp)
    have ht := ih (fun acc' x hx => h acc' x (by simp [hx])) (acc ++ (f a).toList)
    rw [foldlE, ha]
    dsimp only
    rw [ht]
    cases hf : f a <;> simp [List.filterMap_cons, hf]

/-- Effectful fold appending per-element lists equals a `flatMap`. -/
theorem foldlE_append_flatMap {α β : Type _} {h : α → List β}
    {step : List β → α → Except String (List β)} :
    ∀ {l : List α}, (∀ acc a, step acc a = .ok (acc ++ h a)) →
      ∀ acc, foldlE step acc l = .ok (acc ++ l.flatMap h) := by
  intro l
  induction l with
  | nil => intro _ acc; simp [foldlE]
  | cons a t ih =>
    intro hstep acc
    rw [foldlE, hstep acc a]
    dsimp only
    rw [ih (fun acc' x => hstep acc' x) (acc ++ h a)]
    simp

/-- Under a sheet with a `Grade` column, the grade mask never raises. -/
theorem gradeMask_ok {df : List RawRow} (hG : HasGradeCol df) (grade : PyVal) :
    ∀ r ∈ df, gradeMask grade r = .ok (pyEqVal (gradeValOf r) grade) := by
  intro r hr
  obtain ⟨g, hg⟩ := Option.isSome_iff_exists.mp (hG r hr)
  simp [gradeMask, rowGetE, gradeValOf, hg]

/-- Under uniform columns and a well-formed key, one question-loop iteration
of the analyzer appends exactly the claim-side optional record. -/
theorem qStatStep_spec {df key_df : List RawRow} {assessment_type : String}
    {grade : PyVal} (hU : UniformCols df) (hK : WFKeySheet key_df)
    (acc : List QStat) (i : Nat) :
    qStatStep df grade (rowsOfGrade df grade)
      (key_df.filter (fun k => bMatchesGA k (gradeCode grade) assessment_type)) acc i =
    .ok (acc ++ (specEmit df key_df assessment_type grade i).toList) := by
  unfold qStatStep specEmit
  cases hcol : dfHasCol df ("Q" ++ toString (i + 1)) with
  | false => simp
  | true =>
    rw [if_pos rfl, if_pos rfl]
    have hQ : filterE (fun k => matchesQ k (i + 1))
          (key_df.filter (fun k => bMatchesGA k (gradeCode grade) assessment_type)) =
        .ok ((key_df.filter (fun k => bMatchesGA k (gradeCode grade) assessment_type)).filter
          (fun k => bMatchesQ k (i + 1))) :=
      filterE_ok_of_forall (fun k hk => matchesQ_ok_of_WF (hK k (List.mem_filter.mp hk).1))
    rw [hQ]
    dsimp only
    unfold keyEntry
    cases hh : ((key_df.filter (fun k => bMatchesGA k (gradeCode grade) assessment_type)).filter
        (fun k => bMatchesQ k (i + 1))).head? with
    | none => simp
    | some kr =>
      have hkr : kr ∈ key_df :=
        (List.mem_filter.mp (List.mem_filter.mp (List.mem_of_mem_head? hh)).1).1
      obtain ⟨cv, hcv⟩ := Option.isSome_iff_exists.mp (hK kr hkr).2.2.2
      dsimp only
      rw [show rowGetE kr "Correct Value" = .ok cv from by unfold rowGetE; rw [hcv]]
      have hcells : mapE (fun r => rowGetE r ("Q" ++ toString (i + 1))) (rowsOfGrade df grade) =
          .ok ((rowsOfGrade df grade).map (fun r => cellOrNA r ("Q" ++ toString (i + 1)))) := by
        refine mapE_ok_of_forall ?_
        intro r hr
        have hrdf : r ∈ df := (List.mem_filter.mp hr).1
        obtain ⟨v, hv⟩ := Option.isSome_iff_exists.mp (hU r hrdf _ hcol)
        simp [rowGetE, cellOrNA, hv]
      rw [hcells]
      simp [specAccuracy, hcv, List.map_map, Function.comp_def]

/-- Under the well-formedness hypotheses, the analyzer's per-grade loop
produces exactly the claim-side records. -/
theorem qStatsForGrade_spec {df key_df : List RawRow} {assessment_type : String}
    (hG : HasGradeCol df) (hU : UniformCols df) (hK : WFKeySheet key_df)
    (grade : PyVal) :
    qStatsForGrade df key_df assessment_type grade =
      .ok (specGradeRecords df key_df assessment_type grade) := by
  unfold qStatsForGrade
  rw [filterE_ok_of_forall (gradeMask_ok hG grade)]
  dsimp only
  rw [show filterGA key_df (gradeCode grade) assessment_type =
      .ok (key_df.filter (fun k => bMatchesGA k (gradeCode grade) assessment_type)) from
    filterE_ok_of_forall (fun k hk => matchesGA_ok_of_WF (hK k hk))]
  dsimp only
  have := @foldlE_append_toList _ _ (specEmit df key_df assessment_type grade)
    (qStatStep df grade (rowsOfGrade df grade)
      (key_df.filter (fun k => bMatchesGA k (gradeCode grade) assessment_type)))
    (List.range 10) (fun acc a _ => qStatStep_spec hU hK acc a) []
  simpa [specGradeRecords, rowsOfGrade, gradeValOf] using this

/-- Under the well-formedness hypotheses, the analyzer equals its claim-side
characterisation. -/
theorem calculate_question_stats_spec {df key_df : List RawRow} {assessment_type : String}
    (hG : HasGradeCol df) (hU : UniformCols df) (hK : WFKeySheet key_df) :
    calculate_question_stats df key_df assessment_type =
      .ok (specStats df key_df assessment_type) := by
  unfold calculate_question_stats
  have hcol : mapE (fun r => rowGetE r "Grade") df = .ok (pureGrades df) := by
    refine mapE_ok_of_forall ?_
    intro r hr
    obtain ⟨g, hg⟩ := Option.isSome_iff_exists.mp (hG r hr)
    simp [rowGetE, gradeValOf, hg]
  rw [hcol]
  dsimp only
  have := @foldlE_append_flatMap _ _ (specGradeRecords df key_df assessment_type)
    (fun acc g =>
      match qStatsForGrade df key_df assessment_type g with
      | .error e => .error e
      | .ok s => .ok (acc ++ s))
    (uniqueFirst (pureGrades df))
    (fun acc g => by simp [qStatsForGrade_spec hG hU hK g]) []
  simpa [specStats] using this

/-- The mean of a nonempty boolean series, times 100, is a finite value in
`[0, 100]`. -/
theorem meanBool100_bounds {l : List Bool} (h : l ≠ []) :
    ∃ qv : ℚ, meanBool100 l = .val qv ∧ 0 ≤ qv ∧ qv ≤ 100 := by
  refine ⟨((l.countP id : ℚ) / (l.length : ℚ)) * 100, ?_, ?_, ?_⟩
  · unfold meanBool100
    cases l with
    | nil => exact absurd rfl h
    | cons a t => rfl
  · positivity
  · have hlen : 0 < (l.length : ℚ) := by
      exact_mod_cast List.length_pos.mpr h
    have hle : (l.countP id : ℚ) ≤ (l.length : ℚ) := by
      exact_mod_cast List.countP_le_length id (l := l)
    have hdiv : (l.countP id : ℚ) / (l.length : ℚ) ≤ 1 := by
      rw [div_le_one hlen]; exact hle
    calc ((l.countP id : ℚ) / (l.length : ℚ)) * 100 ≤ 1 * 100 :=
          mul_le_mul_of_nonneg_right hdiv (by norm_num)
      _ = 100 := by norm_num

/-- What an emitted claim-side record contains. -/
theorem specEmit_some {df key_df : List RawRow} {assessment_type : String} {g : PyVal}
    {i : Nat} {st : QStat} (h : specEmit df key_df assessment_type g i = some st) :
    st.grade = g ∧ st.question = "Q" ++ toString (i + 1) ∧
    dfHasCol df ("Q" ++ toString (i + 1)) = true ∧
    ∃ cv, keyEntry key_df (gradeCode g) assessment_type (i + 1) = some cv ∧
      st.accuracy = specAccuracy df g ("Q" ++ toString (i + 1)) cv := by
  unfold specEmit at h
  split at h
  · rename_i hcol
    cases hk : keyEntry key_df (gradeCode g) assessment_type (i + 1) with
    | none => rw [hk] at h; cases h
    | some cv =>
      rw [hk] at h
      cases h
      exact ⟨rfl, rfl, hcol, cv, rfl, rfl⟩
  · cases h

/-- Membership in the claim-side statistics. -/
theorem specStats_mem {df key_df : List RawRow} {assessment_type : String} {st : QStat}
    (h : st ∈ specStats df key_df assessment_type) :
    st.grade ∈ uniqueFirst (pureGrades df) ∧
    ∃ i, i < 10 ∧ specEmit df key_df assessment_type st.grade i = some st := by
  obtain ⟨g, hg, hst⟩ := List.mem_flatMap.mp h
  obtain ⟨i, hi, hemit⟩ := List.mem_filterMap.mp hst
  have hgr := (specEmit_some hemit).1
  rw [hgr]
  exact ⟨hg, i, List.mem_range.mp hi, hemit⟩

/-- Every emitted record of a grade that matches at least one row has a
finite accuracy between 0 and 100. -/
theorem specStats_accuracy_bounds {df key_df : List RawRow} {assessment_type : String}
    {st : QStat} (h : st ∈ specStats df key_df assessment_type)
    (hne : rowsOfGrade df st.grade ≠ []) :
    ∃ qv : ℚ, st.accuracy = .val qv ∧ 0 ≤ qv ∧ qv ≤ 100 := by
  obtain ⟨-, i, -, hemit⟩ := specStats_mem h
  obtain ⟨-, -, -, cv, -, hacc⟩ := specEmit_some hemit
  rw [hacc]
  unfold specAccuracy
  apply meanBool100_bounds
  simpa [List.map_eq_nil_iff] using hne

/-- Counting over a `flatMap` is the sum of per-element counts. -/
theorem countP_flatMap_eq {α β : Type _} (p : β → Bool) (h : α → List β) :
    ∀ l : List α, (l.flatMap h).countP p = (l.map (fun x => (h x).countP p)).sum := by
  intro l
  induction l with
  | nil => rfl
  | cons a t ih => simp [List.flatMap_cons, List.countP_append, ih]

/-- Counting over a `filterMap`. -/
theorem countP_filterMap_eq {α β : Type _} (p : β → Bool) (f : α → Option β) :
    ∀ l : List α, (l.filterMap f).countP p =
      l.countP (fun a => match f a with | some b => p b | none => false) := by
  intro l
  induction l with
  | nil => rfl
  | cons a t ih =>
    cases hf : f a <;> simp [List.filterMap_cons, hf, List.countP_cons, ih]

/-- On a duplicate-free list, a predicate false away from `x` counts `x`
alone. -/
theorem countP_single {α : Type _} (p : α → Bool) {l : List α} {x : α} (hnd : l.Nodup)
    (hx : x ∈ l) (hz : ∀ y ∈ l, y ≠ x → p y = false) :
    l.countP p = if p x then 1 else 0 := by
  induction l with
  | nil => cases hx
  | cons a t ih =>
    rw [List.nodup_cons] at hnd
    rcases List.mem_cons.mp hx with rfl | hxt
    · have hzt : ∀ y ∈ t, p y = false :=
        fun y hy => hz y (by simp [hy]) (fun hyx => hnd.1 (hyx ▸ hy))
      rw [List.countP_cons, List.countP_eq_zero.mpr (fun y hy => by simp [hzt y hy])]
      simp
    · have ha0 : p a = false := hz a (by simp) (fun hax => hnd.1 (hax ▸ hxt))
      rw [List.countP_cons, ih hnd.2 hxt (fun y hy hyx => hz y (by simp [hy]) hyx)]
      simp [ha0]

/-- On a duplicate-free list, a Nat-valued map zero away from `x` sums to its
value at `x`. -/
theorem sum_map_single {α : Type _} {f : α → Nat} {l : List α} {x : α} (hnd : l.Nodup)
    (hx : x ∈ l) (hz : ∀ y ∈ l, y ≠ x → f y = 0) : (l.map f).sum = f x := by
  induction l with
  | nil => cases hx
  | cons a t ih =>
    rw [List.nodup_cons] at hnd
    rcases List.mem_cons.mp hx with rfl | hxt
    · have hzt : ∀ y ∈ t, f y = 0 :=
        fun y hy => hz y (by simp [hy]) (fun hyx => hnd.1 (hyx ▸ hy))
      simp [List.sum_eq_zero (fun v hv => by
        obtain ⟨y, hy, rfl⟩ := List.mem_map.mp hv
        exact hzt y hy)]
    · have ha0 : f a = 0 := hz a (by simp) (fun hax => hnd.1 (hax ▸ hxt))
      simp [ha0, ih hnd.2 hxt (fun y hy hyx => hz y (by simp [hy]) hyx)]

/-- `Series.unique()` never repeats a value. -/
theorem uniqueFirstAux_nodup :
    ∀ (l seen : List PyVal),
      (uniqueFirstAux l seen).Nodup ∧ ∀ x ∈ uniqueFirstAux l seen, x ∉ seen := by
  intro l
  induction l with
  | nil => intro seen; exact ⟨List.nodup_nil, by intro x hx; cases hx⟩
  | cons a t ih =>
    intro seen
    unfold uniqueFirstAux
    by_cases ha : a ∈ seen
    · rw [if_pos ha]
      exact ih seen
    · rw [if_neg ha]
      refine ⟨List.nodup_cons.mpr ⟨?_, (ih (a :: seen)).1⟩, ?_⟩
      · intro hmem
        exact ((ih (a :: seen)).2 a hmem) (by simp)
      · intro x hx
        rcases List.mem_cons.mp hx with rfl | hxt
        · exact ha
        · intro hxs
          exact (ih (a :: seen)).2 x hxt (by simp [hxs])

theorem uniqueFirst_nodup (l : List PyVal) : (uniqueFirst l).Nodup :=
  (uniqueFirstAux_nodup l []).1

/-- The question labels of the loop coincide exactly when the question
numbers do. -/
theorem qcol_beq_iff {i q : Nat} (hi : i < 10) (hq1 : 1 ≤ q) (hq : q ≤ 10) :
    (("Q" ++ toString (i + 1)) == ("Q" ++ toString q)) = decide (i + 1 = q) := by
  interval_cases i <;> interval_cases q <;> decide

/-- Counting over the ten-question loop a predicate pinned to question `q`. -/
theorem countP_range10 {C : Nat → Bool} {q : Nat} (hq1 : 1 ≤ q) (hq : q ≤ 10) :
    (List.range 10).countP (fun i => decide (i + 1 = q) && C (i + 1)) =
      if C q then 1 else 0 := by
  have hmem : q - 1 ∈ List.range 10 := List.mem_range.mpr (by omega)
  have hq' : q - 1 + 1 = q := by omega
  have hval := countP_single (fun i => decide (i + 1 = q) && C (i + 1))
    (List.nodup_range 10) hmem
    (fun y _ hyx => by
      have : ¬ (y + 1 = q) := by omega
      simp [this])
  rw [hval]
  simp [hq']

/-- The per-grade claim-side records contain exactly one record for question
`q` iff its column is present and a key entry exists. -/
theorem specGradeRecords_countP {df key_df : List RawRow} {assessment_type : String}
    {g : PyVal} {q : Nat} (hq1 : 1 ≤ q) (hq : q ≤ 10) :
    (specGradeRecords df key_df assessment_type g).countP
        (fun st => decide (st.grade = g) && (st.question == "Q" ++ toString q)) =
      if dfHasCol df ("Q" ++ toString q) &&
          (keyEntry key_df (gradeCode g) assessment_type q).isSome then 1 else 0 := by
  unfold specGradeRecords
  rw [countP_filterMap_eq]
  refine Eq.trans (List.countP_congr (q := fun i => decide (i + 1 = q) &&
      (dfHasCol df ("Q" ++ toString (i + 1)) &&
        (keyEntry key_df (gradeCode g) assessment_type (i + 1)).isSome)) ?_)
    (countP_range10 (C := fun m => dfHasCol df ("Q" ++ toString m) &&
      (keyEntry key_df (gradeCode g) assessment_type m).isSome) hq1 hq)
  intro i hi
  have hi10 : i < 10 := List.mem_range.mp hi
  cases hemit : specEmit df key_df assessment_type g i with
  | none =>
    have hemit' := hemit
    unfold specEmit at hemit'
    split at hemit'
    · rename_i hcol
      cases hk : keyEntry key_df (gradeCode g) assessment_type (i + 1) with
      | none => simp [hemit, hk]
      | some cv => rw [hk] at hemit'; cases hemit'
    · rename_i hcol
      simp only [dfHasCol] at hcol
      simp [hemit, dfHasCol, hcol]
  | some st =>
    obtain ⟨hgr, hque, hcol, cv, hk, -⟩ := specEmit_some hemit
    simp [hemit, hgr, hque, hcol, hk, qcol_beq_iff hi10 hq1 hq]

/-- Exactly-one-record property of the claim-side statistics. -/
theorem specStats_countP {df key_df : List RawRow} {assessment_type : String}
    {g : PyVal} {q : Nat} (hg : g ∈ uniqueFirst (pureGrades df))
    (hq1 : 1 ≤ q) (hq : q ≤ 10) :
    (specStats df key_df assessment_type).countP
        (fun st => decide (st.grade = g) && (st.question == "Q" ++ toString q)) =
      if dfHasCol df ("Q" ++ toString q) &&
          (keyEntry key_df (gradeCode g) assessment_type q).isSome then 1 else 0 := by
  unfold specStats
  rw [countP_flatMap_eq]
  rw [sum_map_single (uniqueFirst_nodup _) hg ?_]
  · exact specGradeRecords_countP hq1 hq
  · intro g' _ hgg
    refine List.countP_eq_zero.mpr ?_
    intro st hst
    obtain ⟨i, _, hemit⟩ := List.mem_filterMap.mp hst
    have := (specEmit_some hemit).1
    simp [this, hgg]

/-- C8 (amended): over sheets with a Grade column, uniform columns and a
well-formed key, the analyzer emits exactly the claim-side records: one
record per distinct grade and question `1..10` whose column is present and
that has a key entry (none otherwise), whose accuracy is
`(matching rows / all rows of the grade) * 100` — and whenever the grade
matches at least one row (pandas `NaN` grades match none) that accuracy is a
finite value in `[0, 100]`. -/
theorem C8_question_stats_characterization (df key_df : List RawRow)
    (assessment_type : String) (hG : HasGradeCol df) (hU : UniformCols df)
    (hK : WFKeySheet key_df) :
    calculate_question_stats df key_df assessment_type =
      .ok (specStats df key_df assessment_type) ∧
    (∀ st ∈ specStats df key_df assessment_type,
      st.grade ∈ uniqueFirst (pureGrades df)) ∧
    (∀ st ∈ specStats df key_df assessment_type,
      rowsOfGrade df st.grade ≠ [] →
      ∃ qv : ℚ, st.accuracy = .val qv ∧ 0 ≤ qv ∧ qv ≤ 100) ∧
    (∀ g ∈ uniqueFirst (pureGrades df), ∀ q : Nat, 1 ≤ q → q ≤ 10 →
      (specStats df key_df assessment_type).countP
          (fun st => decide (st.grade = g) && (st.question == "Q" ++ toString q)) =
        if dfHasCol df ("Q" ++ toString q) &&
            (keyEntry key_df (gradeCode g) assessment_type q).isSome then 1 else 0) :=
  ⟨calculate_question_stats_spec hG hU hK,
   fun _ hst => (specStats_mem hst).1,
   fun _ hst hne => specStats_accuracy_bounds hst hne,
   fun _ hg _ hq1 hq => specStats_countP hg hq1 hq⟩

/-- C8 (counterexample): a row with a blank (NaN) grade and a key entry for
the textual code `"Gnan"` make the analyzer emit a record whose Accuracy is
`NaN` — pandas `NaN == NaN` is false, so the grade group is empty and the
mean of the empty boolean series is `NaN`, which lies outside `[0, 100]` and
is not the claimed ratio. -/
theorem C8_counterexample :
    calculate_question_stats
      [[("Grade", PyVal.na), ("Q1", PyVal.na)]]
      [[("Grade", PyVal.pstr "Gnan"), ("Assessment", PyVal.pstr "Endline"),
        ("Question #", PyVal.pint 1), ("Correct Value", PyVal.pint 1)]]
      "Endline" =
      .ok [{ grade := PyVal.na, question := "Q1", accuracy := PFloat.nan }] ∧
    dfHasCol [[("Grade", PyVal.na), ("Q1", PyVal.na)]] "Q1" = true ∧
    (keyEntry
      [[("Grade", PyVal.pstr "Gnan"), ("Assessment", PyVal.pstr "Endline"),
        ("Question #", PyVal.pint 1), ("Correct Value", PyVal.pint 1)]]
      (gradeCode PyVal.na) "Endline" 1).isSome = true ∧
    ∀ qv : ℚ, PFloat.nan ≠ PFloat.val qv := by
  refine ⟨rfl, rfl, rfl, fun qv h => ?_⟩
  cases h

/-- C8 (witness): the characterisation applied to a concrete one-row,
one-key-entry workbook. -/
theorem C8_witness :
    calculate_question_stats
      [[("Grade", PyVal.pint 3), ("Q1", PyVal.na)]]
      [[("Grade", PyVal.pstr "G3"), ("Assessment", PyVal.pstr "Endline"),
        ("Question #", PyVal.pint 1), ("Correct Value", PyVal.pint 1)]]
      "Endline" =
      .ok (specStats
        [[("Grade", PyVal.pint 3), ("Q1", PyVal.na)]]
        [[("Grade", PyVal.pstr "G3"), ("Assessment", PyVal.pstr "Endline"),
          ("Question #", PyVal.pint 1), ("Correct Value", PyVal.pint 1)]]
        "Endline") :=
  (C8_question_stats_characterization
    [[("Grade", PyVal.pint 3), ("Q1", PyVal.na)]]
    [[("Grade", PyVal.pstr "G3"), ("Assessment", PyVal.pstr "Endline"),
      ("Question #", PyVal.pint 1), ("Correct Value", PyVal.pint 1)]]
    "Endline"
    (by intro r hr; simp only [List.mem_singleton] at hr; subst hr; rfl)
    (by
      intro r hr c hc
      simp only [List.mem_singleton] at hr
      subst hr
      simpa [dfHasCol] using hc)
    (by
      intro k hk
      simp only [List.mem_singleton] at hk
      subst hk
      exact ⟨rfl, rfl, rfl, rfl⟩)).1
